import Mathlib

/-!
Verification development for the futu_trends signal-analysis core.

The Python sources under study are:
  signal_analysis/indicators.py  (KD / MACD / RSI strategies),
  signal_analysis/tool.py        (ATR, forward ranges, win-rate evaluator,
                                  regime classification helpers),
  signal_analysis/analysis.py    (optimization objective),
  signal_analysis/KD.py          (legacy module star-imported by analysis.py),
  params_db.py                   (per-symbol parameter store, two backends).

Pandas/numpy float series are embedded as lists over a value type FV with an
exact rational payload plus IEEE-style nan / +inf / -inf elements; comparisons
against nan are false, exactly as in numpy.  Rolling windows follow the pandas
semantics: a window of the last w elements, nan values dropped, the aggregate
returned only when at least min_periods non-nan values remain.
-/

/-- IEEE-754-style scalar: a rational number, an infinity, or nan. -/
inductive FV where
  | nan : FV
  | pinf : FV
  | ninf : FV
  | num : ℚ → FV
deriving DecidableEq, Repr

namespace FV

def isNan : FV → Bool
  | nan => true
  | _ => false

def neg : FV → FV
  | nan => nan
  | pinf => ninf
  | ninf => pinf
  | num q => num (-q)

def add : FV → FV → FV
  | nan, _ => nan
  | _, nan => nan
  | pinf, ninf => nan
  | ninf, pinf => nan
  | pinf, _ => pinf
  | _, pinf => pinf
  | ninf, _ => ninf
  | _, ninf => ninf
  | num a, num b => num (a + b)

def sub (a b : FV) : FV := add a (neg b)

def mul : FV → FV → FV
  | nan, _ => nan
  | _, nan => nan
  | pinf, pinf => pinf
  | pinf, ninf => ninf
  | ninf, pinf => ninf
  | ninf, ninf => pinf
  | pinf, num b => if 0 < b then pinf else if b < 0 then ninf else nan
  | num a, pinf => if 0 < a then pinf else if a < 0 then ninf else nan
  | ninf, num b => if 0 < b then ninf else if b < 0 then pinf else nan
  | num a, ninf => if 0 < a then ninf else if a < 0 then pinf else nan
  | num a, num b => num (a * b)

def div : FV → FV → FV
  | nan, _ => nan
  | _, nan => nan
  | pinf, pinf => nan
  | pinf, ninf => nan
  | ninf, pinf => nan
  | ninf, ninf => nan
  | pinf, num b => if b < 0 then ninf else pinf
  | ninf, num b => if b < 0 then pinf else ninf
  | num _, pinf => num 0
  | num _, ninf => num 0
  | num a, num b =>
      if b = 0 then (if a = 0 then nan else if 0 < a then pinf else ninf)
      else num (a / b)

def fabs : FV → FV
  | nan => nan
  | pinf => pinf
  | ninf => pinf
  | num q => num |q|

/-- Strict less-than; any comparison involving nan is false. -/
def flt : FV → FV → Bool
  | nan, _ => false
  | _, nan => false
  | ninf, ninf => false
  | ninf, _ => true
  | _, ninf => false
  | pinf, _ => false
  | num _, pinf => true
  | num a, num b => decide (a < b)

/-- Non-strict comparison; any comparison involving nan is false. -/
def fle : FV → FV → Bool
  | nan, _ => false
  | _, nan => false
  | ninf, _ => true
  | _, pinf => true
  | pinf, _ => false
  | _, ninf => false
  | num a, num b => decide (a ≤ b)

def fmax (a b : FV) : FV := if flt a b then b else a

def fmin (a b : FV) : FV := if flt b a then b else a

end FV

/-- Aggregate: maximum of a (nan-free) window, nan on the empty window. -/
def aggMax : List FV → FV
  | [] => FV.nan
  | a :: t => t.foldl FV.fmax a

/-- Aggregate: minimum of a (nan-free) window, nan on the empty window. -/
def aggMin : List FV → FV
  | [] => FV.nan
  | a :: t => t.foldl FV.fmin a

def fvSum (l : List FV) : FV := l.foldl FV.add (FV.num 0)

/-- Aggregate: arithmetic mean of a window. -/
def aggMean (l : List FV) : FV := FV.div (fvSum l) (FV.num (l.length : ℚ))

/-!  Series combinators.  A pandas series derived from a bar history is
embedded as a list whose entry at index i is computed from the length-(i+1)
front of the underlying data, which makes the no-lookahead (causality)
arguments structural. -/

/-- Pointwise series from the fronts of the input series. -/
def seriesMap (f : List α → β) (xs : List α) : List β :=
  (List.range xs.length).map (fun i => f (xs.take (i + 1)))

/-- The last w elements of a list (all of it when shorter than w). -/
def lastWin (w : ℕ) (pre : List α) : List α := pre.drop (pre.length - w)

/-- Element of a front one before its last (series.shift(1) at the front's
last index); nan when there is no such element. -/
def prevOf (pre : List FV) : FV :=
  if 2 ≤ pre.length then pre.getD (pre.length - 2) FV.nan else FV.nan

/-- pandas series.shift(1). -/
def shiftOne (xs : List FV) : List FV := seriesMap prevOf xs

/-- pandas series.rolling(window=w, min_periods=minp).agg(...): aggregate of
the non-nan values among the last w elements, nan when fewer than minp. -/
def rollingApply (w minp : ℕ) (agg : List FV → FV) (xs : List FV) : List FV :=
  seriesMap (fun pre =>
    let vals := (lastWin w pre).filter (fun v => !v.isNan)
    if vals.length < minp then FV.nan else agg vals) xs

/-- Elementwise strict comparison of two aligned series. -/
def ltL (xs ys : List FV) : List Bool := List.zipWith FV.flt xs ys

def gtL (xs ys : List FV) : List Bool := List.zipWith (fun a b => FV.flt b a) xs ys

def leL (xs ys : List FV) : List Bool := List.zipWith FV.fle xs ys

def geL (xs ys : List FV) : List Bool := List.zipWith (fun a b => FV.fle b a) xs ys

/-- series < scalar, elementwise. -/
def ltScalar (xs : List FV) (q : ℚ) : List Bool := xs.map (fun a => FV.flt a (FV.num q))

/-- series > scalar, elementwise. -/
def gtScalar (xs : List FV) (q : ℚ) : List Bool := xs.map (fun a => FV.flt (FV.num q) a)

/-- Conjunction of two aligned boolean series. -/
def andL (xs ys : List Bool) : List Bool := List.zipWith (fun a b => a && b) xs ys

/-- A single OHLCV bar (data model: Bar). -/
structure Bar where
  op : ℚ
  high : ℚ
  low : ℚ
  close : ℚ
  volume : ℚ
deriving DecidableEq, Repr

def closes (bars : List Bar) : List ℚ := bars.map Bar.close

def highF (bars : List Bar) : List FV := bars.map (fun b => FV.num b.high)

def lowF (bars : List Bar) : List FV := bars.map (fun b => FV.num b.low)

def closeF (bars : List Bar) : List FV := bars.map (fun b => FV.num b.close)

/-- Element of a rational series at index i, read as a float (nan when out of
range); used for the shift(-1)/shift(-2) future accesses of check mode. -/
def fAt (xs : List ℚ) (i : ℕ) : FV :=
  match xs[i]? with
  | some v => FV.num v
  | none => FV.nan

/-- Per-bar signal tag (data model: Signal.reversal). -/
inductive Rev where
  | none
  | support
  | resistance
deriving DecidableEq, Repr

/-- Strategy mode flag: train (no lookahead) vs check (future confirmation). -/
inductive Mode where
  | train
  | check
deriving DecidableEq, Repr

/-- np.select([support_cond, resistance_cond], [支撑, 压力], default none):
the support condition takes priority. -/
def selectRev (sc rc : List Bool) : List Rev :=
  List.zipWith
    (fun s r => if s then Rev.support else if r then Rev.resistance else Rev.none)
    sc rc

/-- Output frame of Indicator.calculate: the bars plus the reversal and
is_strong columns.  The two legacy columns written only by the old
KD.detect_stochastic_signals_vectorized path are absent (none) on every frame
produced by the indicators.py strategies; the legacy win-rate function reads
them and fails when they are missing. -/
structure SignalFrame where
  bars : List Bar
  reversal : List Rev
  is_strong : List Bool
  is_strong_explicit : Option (List Bool) := Option.none
  is_strong_hidden : Option (List Bool) := Option.none
deriving DecidableEq, Repr

/-! KD strategy (indicators.py class KD). -/

structure KDParams where
  kPeriod : ℕ
  dPeriod : ℕ
  overbought : ℚ
  oversold : ℚ
deriving DecidableEq, Repr

/-- KD._stochastic: %K line.  low.rolling(k_period).min(),
high.rolling(k_period).max(), k = 100*(close-low_min)/(high_max-low_min). -/
def stochasticK (high low close : List FV) (kp : ℕ) : List FV :=
  let low_min := rollingApply kp kp aggMin low
  let high_max := rollingApply kp kp aggMax high
  List.zipWith
    (fun c lh => FV.div (FV.mul (FV.num 100) (FV.sub c lh.1)) (FV.sub lh.2 lh.1))
    close (low_min.zip high_max)

/-- KD._stochastic: %D line, rolling mean of %K over d_period. -/
def stochasticD (k : List FV) (dp : ℕ) : List FV := rollingApply dp dp aggMean k

/-- KD._future_confirmation (check mode only; inspects bars i+1 and i+2). -/
def kdFutureConfirmation (bars : List Bar) (isSupport : Bool) : List Bool :=
  let h := bars.map Bar.high
  let l := bars.map Bar.low
  let c := bars.map Bar.close
  let o := bars.map Bar.op
  (List.range bars.length).map (fun i =>
    if isSupport then
      (FV.flt (fAt c i) (fAt c (i+1)) && FV.fle (fAt o (i+1)) (fAt c (i+1))) ||
      (FV.flt (fAt h i) (fAt c (i+1)) && FV.fle (fAt h i) (fAt o (i+1))) ||
      (FV.flt (fAt h i) (fAt c (i+2)) && FV.flt (fAt h (i+1)) (fAt c (i+2)))
    else
      (FV.flt (fAt c (i+1)) (fAt c i) && FV.fle (fAt c (i+1)) (fAt o (i+1))) ||
      (FV.flt (fAt c (i+1)) (fAt l i) && FV.fle (fAt o (i+1)) (fAt l i)) ||
      (FV.flt (fAt c (i+2)) (fAt l i) && FV.flt (fAt c (i+2)) (fAt l (i+1))))

/-- The k series of KD.calculate on a bar history. -/
def kdKline (bars : List Bar) (p : KDParams) : List FV :=
  stochasticK (highF bars) (lowF bars) (closeF bars) p.kPeriod

/-- The d series of KD.calculate on a bar history. -/
def kdDline (bars : List Bar) (p : KDParams) : List FV :=
  stochasticD (kdKline bars p) p.dPeriod

/-- KD support condition before future confirmation:
(k > d) & (k.shift(1) <= d.shift(1)) & (d < oversold). -/
def kdSupportCond (bars : List Bar) (p : KDParams) : List Bool :=
  andL (andL (gtL (kdKline bars p) (kdDline bars p))
             (leL (shiftOne (kdKline bars p)) (shiftOne (kdDline bars p))))
       (ltScalar (kdDline bars p) p.oversold)

/-- KD resistance condition before future confirmation:
(k < d) & (k.shift(1) >= d.shift(1)) & (d > overbought). -/
def kdResistanceCond (bars : List Bar) (p : KDParams) : List Bool :=
  andL (andL (ltL (kdKline bars p) (kdDline bars p))
             (geL (shiftOne (kdKline bars p)) (shiftOne (kdDline bars p))))
       (gtScalar (kdDline bars p) p.overbought)

/-- indicators.py KD.calculate. -/
def kdCalculate (bars : List Bar) (p : KDParams) (mode : Mode) : SignalFrame :=
  let sc0 := kdSupportCond bars p
  let rc0 := kdResistanceCond bars p
  let sc := if mode = Mode.check then andL sc0 (kdFutureConfirmation bars true) else sc0
  let rc := if mode = Mode.check then andL rc0 (kdFutureConfirmation bars false) else rc0
  let reversal := selectRev sc rc
  { bars := bars
    reversal := reversal
    is_strong := reversal.map (fun r => decide (r ≠ Rev.none)) }

/-! MACD strategy (indicators.py class MACD). -/

structure MACDParams where
  fastPeriod : ℕ
  slowPeriod : ℕ
  signalPeriod : ℕ
deriving DecidableEq, Repr

/-- pandas series.ewm(span=s, adjust=False).mean() over an all-number series:
y0 = x0 and y_i = (1-a)*y_(i-1) + a*x_i with a = 2/(s+1). -/
def ewmMean (span : ℕ) (xs : List ℚ) : List ℚ :=
  seriesMap (fun pre =>
    let a : ℚ := 2 / ((span : ℚ) + 1)
    (pre.foldl (fun acc x =>
      match acc with
      | Option.none => some x
      | some y => some ((1 - a) * y + a * x)) Option.none).getD 0) xs

/-- MACD._macd, first component: macd = ema(fast) - ema(slow) on close.
No ATR normalization and no extremity cap appear in the source. -/
def macdLine (close : List ℚ) (fp sp : ℕ) : List ℚ :=
  List.zipWith (fun a b => a - b) (ewmMean fp close) (ewmMean sp close)

/-- MACD._macd, second component: signal = ema(macd, signal span). -/
def macdSignalLine (close : List ℚ) (fp sp sigp : ℕ) : List ℚ :=
  ewmMean sigp (macdLine close fp sp)

/-- MACD._macd. -/
def macdCore (close : List ℚ) (fp sp sigp : ℕ) : List ℚ × List ℚ :=
  (macdLine close fp sp, macdSignalLine close fp sp sigp)

/-- MACD._future_confirmation (check mode only). -/
def macdFutureConfirmation (bars : List Bar) (isSupport : Bool) : List Bool :=
  let c := bars.map Bar.close
  let o := bars.map Bar.op
  (List.range bars.length).map (fun i =>
    if isSupport then
      (FV.flt (fAt c i) (fAt c (i+1)) && FV.fle (fAt o (i+1)) (fAt c (i+1))) ||
      (FV.flt (fAt c i) (fAt c (i+2)) && FV.flt (fAt c (i+1)) (fAt c (i+2)))
    else
      (FV.flt (fAt c (i+1)) (fAt c i) && FV.fle (fAt c (i+1)) (fAt o (i+1))) ||
      (FV.flt (fAt c (i+2)) (fAt c i) && FV.flt (fAt c (i+2)) (fAt c (i+1))))

/-- The macd series of MACD.calculate, as a float series. -/
def macdMline (bars : List Bar) (p : MACDParams) : List FV :=
  (macdLine (closes bars) p.fastPeriod p.slowPeriod).map FV.num

/-- The signal series of MACD.calculate, as a float series. -/
def macdSline (bars : List Bar) (p : MACDParams) : List FV :=
  (macdSignalLine (closes bars) p.fastPeriod p.slowPeriod p.signalPeriod).map FV.num

/-- MACD support condition before future confirmation:
(macd > signal) & (macd.shift(1) <= signal.shift(1)) & (macd > 0). -/
def macdSupportCond (bars : List Bar) (p : MACDParams) : List Bool :=
  andL (andL (gtL (macdMline bars p) (macdSline bars p))
             (leL (shiftOne (macdMline bars p)) (shiftOne (macdSline bars p))))
       (gtScalar (macdMline bars p) 0)

/-- MACD resistance condition before future confirmation:
(macd < signal) & (macd.shift(1) >= signal.shift(1)) & (macd < 0). -/
def macdResistanceCond (bars : List Bar) (p : MACDParams) : List Bool :=
  andL (andL (ltL (macdMline bars p) (macdSline bars p))
             (geL (shiftOne (macdMline bars p)) (shiftOne (macdSline bars p))))
       (ltScalar (macdMline bars p) 0)

/-- indicators.py MACD.calculate, including the degenerate-spacing guard
(fast_period * 1.5 > slow_period emits no signals at all). -/
def macdCalculate (bars : List Bar) (p : MACDParams) (mode : Mode) : SignalFrame :=
  if (p.fastPeriod : ℚ) * (3/2) > (p.slowPeriod : ℚ) then
    { bars := bars
      reversal := bars.map (fun _ => Rev.none)
      is_strong := bars.map (fun _ => false) }
  else
    let sc0 := macdSupportCond bars p
    let rc0 := macdResistanceCond bars p
    let sc := if mode = Mode.check then andL sc0 (macdFutureConfirmation bars true) else sc0
    let rc := if mode = Mode.check then andL rc0 (macdFutureConfirmation bars false) else rc0
    let reversal := selectRev sc rc
    { bars := bars
      reversal := reversal
      is_strong := reversal.map (fun r => decide (r ≠ Rev.none)) }

/-! RSI strategy (indicators.py class RSI). -/

structure RSIParams where
  rsiPeriod : ℕ
  oversold : ℚ
  overbought : ℚ
deriving DecidableEq, Repr

/-- pandas series.diff() at a front: last minus previous, nan at index 0. -/
def diffPre (pre : List ℚ) : FV :=
  if 2 ≤ pre.length then
    FV.num (pre.getD (pre.length - 1) 0 - pre.getD (pre.length - 2) 0)
  else FV.nan

/-- delta = close.diff(). -/
def rsiDelta (close : List ℚ) : List FV := seriesMap diffPre close

/-- gain = delta.where(delta>0, 0).rolling(period).mean(). -/
def rsiGainAvg (close : List ℚ) (period : ℕ) : List FV :=
  rollingApply period period aggMean
    ((rsiDelta close).map (fun d => if FV.flt (FV.num 0) d then d else FV.num 0))

/-- loss = (-delta.where(delta<0, 0)).rolling(period).mean(). -/
def rsiLossAvg (close : List ℚ) (period : ℕ) : List FV :=
  rollingApply period period aggMean
    ((rsiDelta close).map (fun d => FV.neg (if FV.flt d (FV.num 0) then d else FV.num 0)))

/-- rs = gain / loss. -/
def rsiRS (close : List ℚ) (period : ℕ) : List FV :=
  List.zipWith FV.div (rsiGainAvg close period) (rsiLossAvg close period)

/-- RSI._rsi: Wilder-style RSI from simple rolling means of gains/losses;
rsi = 100 - 100/(1+rs). -/
def rsiCore (close : List ℚ) (period : ℕ) : List FV :=
  (rsiRS close period).map
    (fun r => FV.sub (FV.num 100) (FV.div (FV.num 100) (FV.add (FV.num 1) r)))

/-- RSI._future_confirmation (check mode only). -/
def rsiFutureConfirmation (bars : List Bar) (isSupport : Bool) : List Bool :=
  let h := bars.map Bar.high
  let l := bars.map Bar.low
  let c := bars.map Bar.close
  (List.range bars.length).map (fun i =>
    if isSupport then
      FV.flt (fAt h i) (fAt c (i+1)) || FV.flt (fAt h i) (fAt c (i+2))
    else
      FV.flt (fAt c (i+1)) (fAt l i) || FV.flt (fAt c (i+2)) (fAt l i))

/-- RSI support condition before future confirmation:
(rsi < oversold) & (rsi < rsi.shift(1)) & (rsi.shift(1) < oversold). -/
def rsiSupportCond (bars : List Bar) (p : RSIParams) : List Bool :=
  let r := rsiCore (closes bars) p.rsiPeriod
  andL (andL (ltScalar r p.oversold) (ltL r (shiftOne r))) (ltScalar (shiftOne r) p.oversold)

/-- RSI resistance condition before future confirmation:
(rsi > overbought) & (rsi > rsi.shift(1)) & (rsi.shift(1) > overbought). -/
def rsiResistanceCond (bars : List Bar) (p : RSIParams) : List Bool :=
  let r := rsiCore (closes bars) p.rsiPeriod
  andL (andL (gtScalar r p.overbought) (gtL r (shiftOne r))) (gtScalar (shiftOne r) p.overbought)

/-- indicators.py RSI.calculate. -/
def rsiCalculate (bars : List Bar) (p : RSIParams) (mode : Mode) : SignalFrame :=
  let sc0 := rsiSupportCond bars p
  let rc0 := rsiResistanceCond bars p
  let sc := if mode = Mode.check then andL sc0 (rsiFutureConfirmation bars true) else sc0
  let rc := if mode = Mode.check then andL rc0 (rsiFutureConfirmation bars false) else rc0
  let reversal := selectRev sc rc
  { bars := bars
    reversal := reversal
    is_strong := reversal.map (fun r => decide (r ≠ Rev.none)) }

/-- Strategy selector together with its (typed) parameters. -/
inductive StratParams where
  | kd (p : KDParams)
  | macd (p : MACDParams)
  | rsi (p : RSIParams)
deriving DecidableEq, Repr

/-- Polymorphic Indicator.calculate. -/
def calcFrame : StratParams → List Bar → Mode → SignalFrame
  | StratParams.kd p, bars, m => kdCalculate bars p m
  | StratParams.macd p, bars, m => macdCalculate bars p m
  | StratParams.rsi p, bars, m => rsiCalculate bars p m

/-- The declared hyperopt search ranges (Indicator.get_space). -/
def inSpace : StratParams → Prop
  | StratParams.kd p =>
      9 ≤ p.kPeriod ∧ p.kPeriod ≤ 21 ∧ 3 ≤ p.dPeriod ∧ p.dPeriod ≤ 7 ∧
      55 ≤ p.overbought ∧ p.overbought ≤ 90 ∧ 10 ≤ p.oversold ∧ p.oversold ≤ 45
  | StratParams.macd p =>
      6 ≤ p.fastPeriod ∧ p.fastPeriod ≤ 18 ∧ 12 ≤ p.slowPeriod ∧ p.slowPeriod ≤ 36 ∧
      6 ≤ p.signalPeriod ∧ p.signalPeriod ≤ 12
  | StratParams.rsi p =>
      10 ≤ p.rsiPeriod ∧ p.rsiPeriod ≤ 25 ∧ 10 ≤ p.oversold ∧ p.oversold ≤ 30 ∧
      70 ≤ p.overbought ∧ p.overbought ≤ 90

instance : DecidablePred inSpace := fun sp => by
  cases sp <;> (simp only [inSpace]; infer_instance)

/-! Win-rate evaluator (tool.py). -/

/-- True range of the last bar of a front: max of high-low, |high-prev close|,
|low-prev close|; the prev-close terms are nan on the first bar and pandas
max(axis=1) skips them. -/
def trPre (pre : List Bar) : ℚ :=
  match pre.getLast? with
  | Option.none => 0
  | some b =>
      if 2 ≤ pre.length then
        match pre[pre.length - 2]? with
        | some pb => max (b.high - b.low) (max |b.high - pb.close| |b.low - pb.close|)
        | Option.none => b.high - b.low
      else b.high - b.low

/-- The series of true ranges of a bar history. -/
def trueRangeL (bars : List Bar) : List ℚ := seriesMap trPre bars

/-- Rolling mean with min_periods=1 over an all-number series. -/
def rollingMeanOne (w : ℕ) (xs : List ℚ) : List ℚ :=
  seriesMap (fun pre => (lastWin w pre).sum / ((lastWin w pre).length : ℚ)) xs

/-- tool.py ATR: rolling(window=period, min_periods=1) mean of true range. -/
def ATR (bars : List Bar) (period : ℕ) : List ℚ :=
  rollingMeanOne period (trueRangeL bars)

/-- tool.py get_future_range_numba: entry i is the max (resp. min) of the
next look_ahead values, nan (none) for the trailing look_ahead indices. -/
def get_future_range (xs : List ℚ) (look_ahead : ℕ) (isHigh : Bool) : List (Option ℚ) :=
  (List.range xs.length).map (fun i =>
    if i + look_ahead < xs.length then
      match (xs.drop (i + 1)).take look_ahead with
      | [] => Option.none
      | a :: t => some (if isHigh then t.foldl max a else t.foldl min a)
    else Option.none)

/-- Rolling max with min_periods=1 over an all-number series. -/
def rollingMaxQ (w : ℕ) (xs : List ℚ) : List ℚ :=
  seriesMap (fun pre =>
    match lastWin w pre with
    | [] => 0
    | a :: t => t.foldl max a) xs

/-- Rolling min with min_periods=1 over an all-number series. -/
def rollingMinQ (w : ℕ) (xs : List ℚ) : List ℚ :=
  seriesMap (fun pre =>
    match lastWin w pre with
    | [] => 0
    | a :: t => t.foldl min a) xs

/-- future value >= target, false when the future value is nan. -/
def geO (x : Option ℚ) (t : ℚ) : Bool :=
  match x with
  | some v => decide (t ≤ v)
  | Option.none => false

/-- future value <= target, false when the future value is nan. -/
def leO (x : Option ℚ) (t : ℚ) : Bool :=
  match x with
  | some v => decide (v ≤ t)
  | Option.none => false

/-- recent value <= future value, false when the future value is nan. -/
def leRO (r : ℚ) (x : Option ℚ) : Bool :=
  match x with
  | some v => decide (r ≤ v)
  | Option.none => false

/-- recent value >= future value, false when the future value is nan. -/
def geRO (r : ℚ) (x : Option ℚ) : Bool :=
  match x with
  | some v => decide (v ≤ r)
  | Option.none => false

def zipWith5 (g : α → β → γ → δ → ε → ζ) :
    List α → List β → List γ → List δ → List ε → List ζ
  | a :: as, b :: bs, c :: cs, d :: ds, e :: es =>
      g a b c d e :: zipWith5 g as bs cs ds es
  | _, _, _, _, _ => []

/-- support_win column: (reversal == support) & (future_high >= support_target)
[& (recent_low <= future_low) when check_high_low]. -/
def support_win_list (f : SignalFrame) (look_ahead : ℕ) (target_multiplier : ℚ)
    (atr_period : ℕ) (check_high_low : Bool) : List Bool :=
  let tgt := List.zipWith (fun c a => c + a * target_multiplier) (closes f.bars) (ATR f.bars atr_period)
  let fh := get_future_range (f.bars.map Bar.high) look_ahead true
  let fl := get_future_range (f.bars.map Bar.low) look_ahead false
  let rl := rollingMinQ 3 (f.bars.map Bar.low)
  zipWith5 (fun r t h l rlow =>
      decide (r = Rev.support) && geO h t && (!check_high_low || leRO rlow l))
    f.reversal tgt fh fl rl

/-- resistance_win column: (reversal == resistance) & (future_low <=
resistance_target) [& (recent_high >= future_high) when check_high_low]. -/
def resistance_win_list (f : SignalFrame) (look_ahead : ℕ) (target_multiplier : ℚ)
    (atr_period : ℕ) (check_high_low : Bool) : List Bool :=
  let tgt := List.zipWith (fun c a => c - a * target_multiplier) (closes f.bars) (ATR f.bars atr_period)
  let fh := get_future_range (f.bars.map Bar.high) look_ahead true
  let fl := get_future_range (f.bars.map Bar.low) look_ahead false
  let rh := rollingMaxQ 3 (f.bars.map Bar.high)
  zipWith5 (fun r t l h rhigh =>
      decide (r = Rev.resistance) && leO l t && (!check_high_low || geRO rhigh h))
    f.reversal tgt fl fh rh

/-- Rows of the evaluated frame: (reversal, is_strong, win). -/
def zip3M : List Rev → List Bool → List Bool → List (Rev × Bool × Bool)
  | r :: rs, s :: ss, w :: ws => (r, s, w) :: zip3M rs ss ws
  | _, _, _ => []

/-- The aggregate EvaluationResult of calculate_win_rate.  The two
Wald-Wolfowitz runs z-score diagnostics of the source need a square root,
are excluded from every optimization score, and appear in no claim; they are
not modelled here. -/
structure EvalResult where
  support_win_rate : ℚ
  support_signals_count : ℕ
  resistance_win_rate : ℚ
  resistance_signals_count : ℕ
  strong_support_win_rate : ℚ
  strong_support_signals_count : ℕ
  strong_resistance_win_rate : ℚ
  strong_resistance_signals_count : ℕ
  support_recall : ℚ
  resistance_recall : ℚ
deriving DecidableEq, Repr

/-- tool.py calculate_win_rate. -/
def calculate_win_rate (f : SignalFrame) (look_ahead : ℕ) (target_multiplier : ℚ)
    (atr_period : ℕ) (check_high_low : Bool) : EvalResult :=
  let sw := support_win_list f look_ahead target_multiplier atr_period check_high_low
  let rw := resistance_win_list f look_ahead target_multiplier atr_period check_high_low
  let srows := zip3M f.reversal f.is_strong sw
  let rrows := zip3M f.reversal f.is_strong rw
  let sup := srows.filter (fun x => decide (x.1 = Rev.support))
  let res := rrows.filter (fun x => decide (x.1 = Rev.resistance))
  let ssup := sup.filter (fun x => x.2.1)
  let sres := res.filter (fun x => x.2.1)
  { support_win_rate :=
      if 0 < sup.length then (sup.countP (fun x => x.2.2) : ℚ) / (sup.length : ℚ) else 0
    support_signals_count := sup.length
    resistance_win_rate :=
      if 0 < res.length then (res.countP (fun x => x.2.2) : ℚ) / (res.length : ℚ) else 0
    resistance_signals_count := res.length
    strong_support_win_rate :=
      if 0 < ssup.length then (ssup.countP (fun x => x.2.2) : ℚ) / (ssup.length : ℚ) else 0
    strong_support_signals_count := ssup.length
    strong_resistance_win_rate :=
      if 0 < sres.length then (sres.countP (fun x => x.2.2) : ℚ) / (sres.length : ℚ) else 0
    strong_resistance_signals_count := sres.length
    support_recall :=
      if 0 < sup.length then (ssup.length : ℚ) / (sup.length : ℚ) else 0
    resistance_recall :=
      if 0 < res.length then (sres.length : ℚ) / (res.length : ℚ) else 0 }

/-! Legacy win-rate evaluator (KD.py).  analysis.py star-imports KD.py after
importing nothing from tool.py, so the bare name calculate_win_rate inside
Optimization.__call__ resolves to this legacy function.  It filters the frame
by the is_strong_explicit / is_strong_hidden columns, which the indicators.py
strategies never produce; the pandas column lookup then raises KeyError. -/

structure LegacyEvalResult where
  support_win_rate : ℚ
  support_signals_count : ℕ
  resistance_win_rate : ℚ
  resistance_signals_count : ℕ
  strong_support_win_rate : ℚ
  strong_support_signals_count : ℕ
  strong_resistance_win_rate : ℚ
  strong_resistance_signals_count : ℕ
  explicit_strong_support_win_rate : ℚ
  explicit_strong_support_signals_count : ℕ
  explicit_strong_resistance_win_rate : ℚ
  explicit_strong_resistance_signals_count : ℕ
  hidden_strong_support_win_rate : ℚ
  hidden_strong_support_signals_count : ℕ
  hidden_strong_resistance_win_rate : ℚ
  hidden_strong_resistance_signals_count : ℕ
  support_recall : ℚ
  resistance_recall : ℚ
deriving DecidableEq, Repr

/-- KD.py calculate_win_rate.  Its win columns carry no recent-high/low guard
(the check_high_low refinement exists only in tool.py).  Reading the
is_strong_explicit / is_strong_hidden columns of a frame that lacks them is a
KeyError, modelled as an error value. -/
def legacy_calculate_win_rate (f : SignalFrame) (look_ahead : ℕ)
    (target_multiplier : ℚ) (atr_period : ℕ) : Except String LegacyEvalResult :=
  match f.is_strong_explicit, f.is_strong_hidden with
  | Option.none, _ => Except.error "KeyError: is_strong_explicit"
  | some _, Option.none => Except.error "KeyError: is_strong_hidden"
  | some ex, some hid =>
      let sw := support_win_list f look_ahead target_multiplier atr_period false
      let rw := resistance_win_list f look_ahead target_multiplier atr_period false
      let sup := (zip3M f.reversal f.is_strong sw).filter (fun x => decide (x.1 = Rev.support))
      let res := (zip3M f.reversal f.is_strong rw).filter (fun x => decide (x.1 = Rev.resistance))
      let ssup := sup.filter (fun x => x.2.1)
      let sres := res.filter (fun x => x.2.1)
      let exsup := (zip3M f.reversal ex sw).filter (fun x => decide (x.1 = Rev.support) && x.2.1)
      let exres := (zip3M f.reversal ex rw).filter (fun x => decide (x.1 = Rev.resistance) && x.2.1)
      let hsup := (zip3M f.reversal hid sw).filter (fun x => decide (x.1 = Rev.support) && x.2.1)
      let hres := (zip3M f.reversal hid rw).filter (fun x => decide (x.1 = Rev.resistance) && x.2.1)
      Except.ok
        { support_win_rate :=
            if 0 < sup.length then (sup.countP (fun x => x.2.2) : ℚ) / (sup.length : ℚ) else 0
          support_signals_count := sup.length
          resistance_win_rate :=
            if 0 < res.length then (res.countP (fun x => x.2.2) : ℚ) / (res.length : ℚ) else 0
          resistance_signals_count := res.length
          strong_support_win_rate :=
            if 0 < ssup.length then (ssup.countP (fun x => x.2.2) : ℚ) / (ssup.length : ℚ) else 0
          strong_support_signals_count := ssup.length
          strong_resistance_win_rate :=
            if 0 < sres.length then (sres.countP (fun x => x.2.2) : ℚ) / (sres.length : ℚ) else 0
          strong_resistance_signals_count := sres.length
          explicit_strong_support_win_rate :=
            if 0 < exsup.length then (exsup.countP (fun x => x.2.2) : ℚ) / (exsup.length : ℚ) else 0
          explicit_strong_support_signals_count := exsup.length
          explicit_strong_resistance_win_rate :=
            if 0 < exres.length then (exres.countP (fun x => x.2.2) : ℚ) / (exres.length : ℚ) else 0
          explicit_strong_resistance_signals_count := exres.length
          hidden_strong_support_win_rate :=
            if 0 < hsup.length then (hsup.countP (fun x => x.2.2) : ℚ) / (hsup.length : ℚ) else 0
          hidden_strong_support_signals_count := hsup.length
          hidden_strong_resistance_win_rate :=
            if 0 < hres.length then (hres.countP (fun x => x.2.2) : ℚ) / (hres.length : ℚ) else 0
          hidden_strong_resistance_signals_count := hres.length
          support_recall :=
            if 0 < sup.length then (ssup.length : ℚ) / (sup.length : ℚ) else 0
          resistance_recall :=
            if 0 < res.length then (sres.length : ℚ) / (res.length : ℚ) else 0 }

/-! Optimizer objective scores (indicators.py calculate_score). -/

/-- indicators.py KD.calculate_score. -/
def KD_calculate_score (result : EvalResult) (signal_count_target : ℚ) : ℚ :=
  let support_f1 :=
    if 0 < result.strong_support_win_rate + result.support_recall then
      2 * (result.strong_support_win_rate * result.support_recall) /
        (result.strong_support_win_rate + result.support_recall)
    else 0
  let resistance_f1 :=
    if 0 < result.strong_resistance_win_rate + result.resistance_recall then
      2 * (result.strong_resistance_win_rate * result.resistance_recall) /
        (result.strong_resistance_win_rate + result.resistance_recall)
    else 0
  let score :=
    if 0 < support_f1 ∧ 0 < resistance_f1 then 2 / (1 / support_f1 + 1 / resistance_f1)
    else 0
  let signal_count_penalty :=
    min 1 ((min result.strong_support_signals_count result.strong_resistance_signals_count : ℚ) /
      signal_count_target)
  score * signal_count_penalty

/-- indicators.py MACD.calculate_score (divides the density target by 3). -/
def MACD_calculate_score (result : EvalResult) (signal_count_target : ℚ) : ℚ :=
  let t := signal_count_target / 3
  let support_f1 := result.strong_support_win_rate
  let resistance_f1 := result.strong_resistance_win_rate
  let score :=
    if 0 < support_f1 ∧ 0 < resistance_f1 then 2 / (1 / support_f1 + 1 / resistance_f1)
    else 0
  let signal_count_penalty :=
    min 1 ((min result.strong_support_signals_count result.strong_resistance_signals_count : ℚ) / t)
  score * signal_count_penalty

/-- indicators.py RSI.calculate_score (same formula as MACD). -/
def RSI_calculate_score (result : EvalResult) (signal_count_target : ℚ) : ℚ :=
  let t := signal_count_target / 3
  let support_f1 := result.strong_support_win_rate
  let resistance_f1 := result.strong_resistance_win_rate
  let score :=
    if 0 < support_f1 ∧ 0 < resistance_f1 then 2 / (1 / support_f1 + 1 / resistance_f1)
    else 0
  let signal_count_penalty :=
    min 1 ((min result.strong_support_signals_count result.strong_resistance_signals_count : ℚ) / t)
  score * signal_count_penalty

/-- Polymorphic Indicator.calculate_score. -/
def calculate_score : StratParams → EvalResult → ℚ → ℚ
  | StratParams.kd _, r, t => KD_calculate_score r t
  | StratParams.macd _, r, t => MACD_calculate_score r t
  | StratParams.rsi _, r, t => RSI_calculate_score r t

/-- Shared fields of the legacy result, as consumed by calculate_score. -/
def legacyToEval (r : LegacyEvalResult) : EvalResult :=
  { support_win_rate := r.support_win_rate
    support_signals_count := r.support_signals_count
    resistance_win_rate := r.resistance_win_rate
    resistance_signals_count := r.resistance_signals_count
    strong_support_win_rate := r.strong_support_win_rate
    strong_support_signals_count := r.strong_support_signals_count
    strong_resistance_win_rate := r.strong_resistance_win_rate
    strong_resistance_signals_count := r.strong_resistance_signals_count
    support_recall := r.support_recall
    resistance_recall := r.resistance_recall }

/-- analysis.py Optimization.__call__ with Python name resolution applied:
the frame comes from indicators.py calculate (mode train), but the bare name
calculate_win_rate is the legacy KD.py function (star-imported last for that
name), so the call raises KeyError instead of producing a score. -/
def optimizationCall (sp : StratParams) (df : List Bar) (look_ahead : ℕ)
    (target_multiplier : ℚ) (atr_period : ℕ) (signal_count_target : ℚ) :
    Except String ℚ :=
  match legacy_calculate_win_rate (calcFrame sp df Mode.train) look_ahead
      target_multiplier atr_period with
  | Except.ok r => Except.ok (-(calculate_score sp (legacyToEval r) signal_count_target))
  | Except.error e => Except.error e

/-! Spec-side definitions used for refinement comparisons (C6, C8). -/

/-- Modelled from the spec (§4.2 MACD): the oscillator as the spec words it,
the fast/slow EMA difference normalized by ATR(slow_period).  The source
macdLine performs no such normalization; this definition exists only to be
compared against it. -/
def specMacdOscillator (bars : List Bar) (fp sp : ℕ) : List ℚ :=
  List.zipWith (fun m a => m / a) (macdLine (closes bars) fp sp) (ATR bars sp)

/-- Guarded harmonic mean, 0 unless both arguments are positive. -/
def harmonicMean2 (a b : ℚ) : ℚ := if 0 < a ∧ 0 < b then 2 * a * b / (a + b) else 0

/-- The smaller of the two per-side strong signal counts, as a rational. -/
def minStrongCount (r : EvalResult) : ℚ :=
  (min r.strong_support_signals_count r.strong_resistance_signals_count : ℚ)

/-- KD base score as the spec words it: harmonic combination of per-side F1
scores, each the harmonic mean of strong win rate and recall. -/
def specBaseScoreKD (r : EvalResult) : ℚ :=
  harmonicMean2 (harmonicMean2 r.strong_support_win_rate r.support_recall)
    (harmonicMean2 r.strong_resistance_win_rate r.resistance_recall)

/-- MACD/RSI base score as the spec words it: harmonic combination of the two
per-side strong win rates. -/
def specBaseScoreWinRate (r : EvalResult) : ℚ :=
  harmonicMean2 r.strong_support_win_rate r.strong_resistance_win_rate

/-! Parameter store (params_db.py). -/

/-- StockParams record; the three JSON payloads are kept opaque as strings,
timestamps as integers (only their order matters). -/
structure StockParams where
  stock_code : String
  best_params : String
  meta_info : String
  performance : String
  last_updated : ℤ
  source_file : String
deriving DecidableEq, Repr

/-- A store state: per-symbol record keyed by stock_code. -/
def DBState := String → Option StockParams

def dbEmpty : DBState := fun _ => Option.none

def dbInsert (db : DBState) (p : StockParams) : DBState :=
  fun c => if c = p.stock_code then some p else db c

/-- SQLite branch of ParamsDB._update_stock_params: skip when the stored
timestamp is strictly newer; otherwise upsert guarded by
WHERE excluded.last_updated > stock_params.last_updated. -/
def sqliteUpdateStockParams (db : DBState) (p : StockParams) : DBState :=
  match db p.stock_code with
  | some cur =>
      if cur.last_updated > p.last_updated then db
      else if p.last_updated > cur.last_updated then dbInsert db p
      else db
  | Option.none => dbInsert db p

/-- MongoDB branch of ParamsDB._update_stock_params: skip when the stored
timestamp is strictly newer; otherwise update_one($set, upsert) replaces the
document unconditionally (equal timestamps replace). -/
def mongoUpdateStockParams (db : DBState) (p : StockParams) : DBState :=
  match db p.stock_code with
  | some cur => if cur.last_updated > p.last_updated then db else dbInsert db p
  | Option.none => dbInsert db p

/-- The view returned by get_stock_params. -/
structure StockParamsView where
  best_params : String
  meta_info : String
  performance : String
deriving DecidableEq, Repr

/-- ParamsDB.get_stock_params (both backends return the same three fields). -/
def get_stock_params (db : DBState) (stock_code : String) : Option StockParamsView :=
  match db stock_code with
  | some r => some { best_params := r.best_params, meta_info := r.meta_info,
                     performance := r.performance }
  | Option.none => Option.none

structure ParamsFileEntry where
  code : String
  best_params : String
  meta_info : String
  performance : String
deriving DecidableEq, Repr

/-- A parameters file: a path, the timestamp derived from its name, and one
payload per symbol (JSON object keys are unique). -/
structure ParamsFile where
  path : String
  timestamp : ℤ
  entries : List ParamsFileEntry
deriving DecidableEq, Repr

/-- ParamsDB._parse_params_file: every record carries the file timestamp and
the file path as source_file. -/
def parseParamsFile (file : ParamsFile) : List StockParams :=
  file.entries.map (fun e =>
    { stock_code := e.code
      best_params := e.best_params
      meta_info := e.meta_info
      performance := e.performance
      last_updated := file.timestamp
      source_file := file.path })

/-- ParamsDB.import_params over a chosen backend update function. -/
def import_params (upd : DBState → StockParams → DBState) (db : DBState)
    (file : ParamsFile) : DBState :=
  (parseParamsFile file).foldl upd db

/-! Regime classifier (tool.py). -/

def meanQ (l : List ℚ) : ℚ := l.sum / (l.length : ℚ)

/-- Rolling mean with pandas-default min_periods = window, over raw closes. -/
def maQ (w : ℕ) (xs : List ℚ) : List FV :=
  rollingApply w w aggMean (xs.map FV.num)

/-- One step of the trend state machine of calculate_trend_duration.
State: (direction, days, recorded trends as (trend_length, end index)). -/
def trendStep (isU isD : ℕ → Bool) (st : ℤ × ℕ × List (ℕ × ℕ)) (i : ℕ) :
    ℤ × ℕ × List (ℕ × ℕ) :=
  let dir := st.1
  let days := st.2.1
  let acc := st.2.2
  if dir = 0 then
    if isU i then (1, 1, acc)
    else if isD i then (-1, 1, acc)
    else st
  else if (dir = 1 ∧ isU i) ∨ (dir = -1 ∧ isD i) then (dir, days + 1, acc)
  else (0, 0, if 5 ≤ days then acc ++ [(days, i)] else acc)

/-- tool.py calculate_trend_duration: 5/10/15 moving-average alignment runs,
runs shorter than 5 bars discarded, first and last run dropped when more than
two runs were found.  Trend end dates are modelled by bar positions. -/
def calculate_trend_duration (bars : List Bar) : List (ℕ × ℕ) :=
  let n := bars.length
  let ms := maQ 5 (closes bars)
  let mm := maQ 10 (closes bars)
  let ml := maQ 15 (closes bars)
  let at_ := fun (l : List FV) (i : ℕ) => l.getD i FV.nan
  let isU := fun (i : ℕ) =>
    FV.flt (at_ mm i) (at_ ms i) && FV.flt (at_ ml i) (at_ mm i) &&
      FV.flt (at_ ms (i - 1)) (at_ ms i)
  let isD := fun (i : ℕ) =>
    FV.flt (at_ ms i) (at_ mm i) && FV.flt (at_ mm i) (at_ ml i) &&
      FV.flt (at_ ms i) (at_ ms (i - 1))
  let t := (((List.range n).drop 15).foldl (trendStep isU isD) (0, 0, [])).2.2
  if 2 < t.length then (t.drop 1).dropLast else t

/-- np.array_split into k parts: the first (n mod k) parts one element
longer. -/
def arraySplit (l : List α) (k : ℕ) : List (List α) :=
  let n := l.length
  let q := n / k
  let r := n % k
  (List.range k).map (fun i =>
    (l.drop (i * q + min i r)).take (q + if i < r then 1 else 0))

/-- One row of the market-state frame of analyze_market_states. -/
structure MarketStateRow where
  periodEnd : ℕ
  volatility : ℚ
  historical_volatility : ℚ
  trend_length : ℚ
deriving DecidableEq, Repr

/-- Per-group volatility: mean(ATR(period)) / mean(close). -/
def groupVolList (groups : List (List Bar)) (period : ℕ) : List ℚ :=
  groups.map (fun g => meanQ (ATR g period) / meanQ (closes g))

/-- tool.py analyze_market_states: ceil(n/period) contiguous groups, per-group
volatility, running-mean historical volatility and the mean positive length of
the trends ending no later than the group end. -/
def analyze_market_states (bars : List Bar) (period : ℕ) : List MarketStateRow :=
  let n := bars.length
  let k := (n + period - 1) / period
  let groups := arraySplit bars k
  let idxG := arraySplit (List.range n) k
  let trends := calculate_trend_duration bars
  let vols := groupVolList groups period
  (List.range groups.length).map (fun gi =>
    let endIdx := ((idxG.getD gi []).getLast?).getD 0
    let hist := (trends.filter (fun te => te.2 ≤ endIdx)).map (fun te => (te.1 : ℚ))
    { periodEnd := endIdx
      volatility := vols.getD gi 0
      historical_volatility := meanQ (vols.take (gi + 1))
      trend_length := if 0 < hist.length then meanQ (hist.filter (fun v => 0 < v)) else 0 })

/-- tool.py determine_look_ahead. -/
def determine_look_ahead (volatility trend_length : ℚ) : ℕ :=
  if volatility > 3/100 ∧ trend_length < 7 then 7
  else if volatility < 2/100 ∧ trend_length > 10 then 14
  else 10

/-- tool.py get_signal_target_percentage. -/
def get_signal_target_percentage (volatility : ℚ) : ℚ :=
  if volatility ≥ 35/1000 then 7/100
  else if volatility ≥ 10/1000 then 5/100
  else 3/100

/-- The zero-volatility synthetic series: n identical bars. -/
def constBars (n : ℕ) (c : ℚ) : List Bar :=
  List.replicate n { op := c, high := c, low := c, close := c, volume := 0 }

/-! Causality (no-lookahead) machinery for C1.  A derived series is causal
when its first n entries depend only on the first n bars. -/

/-- s never looks ahead: it preserves length, and equal bar fronts give
equal series fronts. -/
def Causal (s : List Bar → List α) : Prop :=
  (∀ b, (s b).length = b.length) ∧
  ∀ b1 b2 : List Bar, ∀ n : ℕ, b1.length = b2.length → b1.take n = b2.take n →
    (s b1).take n = (s b2).take n

theorem length_seriesMap (f : List α → β) (xs : List α) :
    (seriesMap f xs).length = xs.length := by
  simp [seriesMap]

theorem take_seriesMap_congr (f : List α → β) (xs ys : List α) (n : ℕ)
    (hl : xs.length = ys.length) (h : xs.take n = ys.take n) :
    (seriesMap f xs).take n = (seriesMap f ys).take n := by
  unfold seriesMap
  rw [← List.map_take, ← List.map_take, List.take_range, List.take_range, hl]
  apply List.map_congr_left
  intro i hi
  have hin : i + 1 ≤ n := by
    have := List.mem_range.mp hi
    omega
  have e1 : xs.take (i + 1) = (xs.take n).take (i + 1) := by
    rw [List.take_take, min_eq_left hin]
  have e2 : ys.take (i + 1) = (ys.take n).take (i + 1) := by
    rw [List.take_take, min_eq_left hin]
  rw [e1, e2, h]

theorem causal_map (g : Bar → α) : Causal (fun b => b.map g) := by
  refine ⟨fun b => by simp, fun b1 b2 n _ h => ?_⟩
  rw [← List.map_take, ← List.map_take, h]

theorem causal_seriesMap (f : List α → β) {s : List Bar → List α} (hs : Causal s) :
    Causal (fun b => seriesMap f (s b)) := by
  refine ⟨fun b => by rw [length_seriesMap, hs.1], fun b1 b2 n hl h => ?_⟩
  exact take_seriesMap_congr f _ _ n (by rw [hs.1, hs.1, hl]) (hs.2 b1 b2 n hl h)

theorem causal_zipWith (g : α → β → γ) {s : List Bar → List α} {t : List Bar → List β}
    (hs : Causal s) (ht : Causal t) :
    Causal (fun b => List.zipWith g (s b) (t b)) := by
  refine ⟨fun b => by rw [List.length_zipWith, hs.1, ht.1, min_self],
    fun b1 b2 n hl h => ?_⟩
  rw [List.take_zipWith, List.take_zipWith, hs.2 b1 b2 n hl h, ht.2 b1 b2 n hl h]

theorem causal_comp_map (g : α → β) {s : List Bar → List α} (hs : Causal s) :
    Causal (fun b => (s b).map g) := by
  refine ⟨fun b => by rw [List.length_map, hs.1], fun b1 b2 n hl h => ?_⟩
  rw [← List.map_take, ← List.map_take, hs.2 b1 b2 n hl h]

theorem causal_zip {s : List Bar → List α} {t : List Bar → List β}
    (hs : Causal s) (ht : Causal t) :
    Causal (fun b => (s b).zip (t b)) := by
  simpa [List.zip] using causal_zipWith Prod.mk hs ht

theorem causal_rolling (w minp : ℕ) (agg : List FV → FV)
    {s : List Bar → List FV} (hs : Causal s) :
    Causal (fun b => rollingApply w minp agg (s b)) := by
  unfold rollingApply
  exact causal_seriesMap _ hs

theorem causal_shiftOne {s : List Bar → List FV} (hs : Causal s) :
    Causal (fun b => shiftOne (s b)) := by
  unfold shiftOne
  exact causal_seriesMap _ hs

theorem causal_ewmMean (span : ℕ) {s : List Bar → List ℚ} (hs : Causal s) :
    Causal (fun b => ewmMean span (s b)) := by
  unfold ewmMean
  exact causal_seriesMap _ hs

theorem causal_highF : Causal highF := causal_map _

theorem causal_lowF : Causal lowF := causal_map _

theorem causal_closeF : Causal closeF := causal_map _

theorem causal_closes : Causal closes := causal_map _

theorem causal_kdKline (p : KDParams) : Causal (fun bars => kdKline bars p) := by
  unfold kdKline stochasticK
  exact causal_zipWith _ causal_closeF
    (causal_zip (causal_rolling _ _ _ causal_lowF) (causal_rolling _ _ _ causal_highF))

theorem causal_kdDline (p : KDParams) : Causal (fun bars => kdDline bars p) := by
  unfold kdDline stochasticD
  exact causal_rolling _ _ _ (causal_kdKline p)

theorem causal_kdSupportCond (p : KDParams) :
    Causal (fun bars => kdSupportCond bars p) := by
  unfold kdSupportCond andL gtL leL ltScalar
  exact causal_zipWith _
    (causal_zipWith _ (causal_zipWith _ (causal_kdKline p) (causal_kdDline p))
      (causal_zipWith _ (causal_shiftOne (causal_kdKline p))
        (causal_shiftOne (causal_kdDline p))))
    (causal_comp_map _ (causal_kdDline p))

theorem causal_kdResistanceCond (p : KDParams) :
    Causal (fun bars => kdResistanceCond bars p) := by
  unfold kdResistanceCond andL ltL geL gtScalar
  exact causal_zipWith _
    (causal_zipWith _ (causal_zipWith _ (causal_kdKline p) (causal_kdDline p))
      (causal_zipWith _ (causal_shiftOne (causal_kdKline p))
        (causal_shiftOne (causal_kdDline p))))
    (causal_comp_map _ (causal_kdDline p))

theorem causal_selectRev {s t : List Bar → List Bool} (hs : Causal s) (ht : Causal t) :
    Causal (fun b => selectRev (s b) (t b)) := by
  unfold selectRev
  exact causal_zipWith _ hs ht

theorem kdCalculate_train_reversal (bars : List Bar) (p : KDParams) :
    (kdCalculate bars p Mode.train).reversal =
      selectRev (kdSupportCond bars p) (kdResistanceCond bars p) := rfl

theorem kdCalculate_train_strong (bars : List Bar) (p : KDParams) :
    (kdCalculate bars p Mode.train).is_strong =
      ((kdCalculate bars p Mode.train).reversal).map (fun r => decide (r ≠ Rev.none)) := rfl

theorem causal_kd_reversal (p : KDParams) :
    Causal (fun bars => (kdCalculate bars p Mode.train).reversal) := by
  have h := causal_selectRev (causal_kdSupportCond p) (causal_kdResistanceCond p)
  simpa [kdCalculate_train_reversal] using h

theorem causal_macdMline (p : MACDParams) : Causal (fun bars => macdMline bars p) := by
  unfold macdMline macdLine
  exact causal_comp_map _
    (causal_zipWith _ (causal_ewmMean _ causal_closes) (causal_ewmMean _ causal_closes))

theorem causal_macdSline (p : MACDParams) : Causal (fun bars => macdSline bars p) := by
  unfold macdSline macdSignalLine macdLine
  exact causal_comp_map _
    (causal_ewmMean _
      (causal_zipWith _ (causal_ewmMean _ causal_closes) (causal_ewmMean _ causal_closes)))

theorem causal_macdSupportCond (p : MACDParams) :
    Causal (fun bars => macdSupportCond bars p) := by
  unfold macdSupportCond andL gtL leL gtScalar
  exact causal_zipWith _
    (causal_zipWith _ (causal_zipWith _ (causal_macdMline p) (causal_macdSline p))
      (causal_zipWith _ (causal_shiftOne (causal_macdMline p))
        (causal_shiftOne (causal_macdSline p))))
    (causal_comp_map _ (causal_macdMline p))

theorem causal_macdResistanceCond (p : MACDParams) :
    Causal (fun bars => macdResistanceCond bars p) := by
  unfold macdResistanceCond andL ltL geL ltScalar
  exact causal_zipWith _
    (causal_zipWith _ (causal_zipWith _ (causal_macdMline p) (causal_macdSline p))
      (causal_zipWith _ (causal_shiftOne (causal_macdMline p))
        (causal_shiftOne (causal_macdSline p))))
    (causal_comp_map _ (causal_macdMline p))

theorem causal_macd_reversal (p : MACDParams) :
    Causal (fun bars => (macdCalculate bars p Mode.train).reversal) := by
  by_cases hg : (p.fastPeriod : ℚ) * (3/2) > (p.slowPeriod : ℚ)
  · have h : (fun bars => (macdCalculate bars p Mode.train).reversal) =
        fun bars => bars.map (fun _ => Rev.none) := by
      funext bars
      simp [macdCalculate, hg]
    rw [h]
    exact causal_map _
  · have h : (fun bars => (macdCalculate bars p Mode.train).reversal) =
        fun bars => selectRev (macdSupportCond bars p) (macdResistanceCond bars p) := by
      funext bars
      simp [macdCalculate, hg]
    rw [h]
    exact causal_selectRev (causal_macdSupportCond p) (causal_macdResistanceCond p)

theorem causal_rsiLine (period : ℕ) :
    Causal (fun bars => rsiCore (closes bars) period) := by
  unfold rsiCore rsiRS rsiGainAvg rsiLossAvg rsiDelta
  exact causal_comp_map _
    (causal_zipWith _
      (causal_rolling _ _ _ (causal_comp_map _ (causal_seriesMap _ causal_closes)))
      (causal_rolling _ _ _ (causal_comp_map _ (causal_seriesMap _ causal_closes))))

theorem causal_rsiSupportCond (p : RSIParams) :
    Causal (fun bars => rsiSupportCond bars p) := by
  unfold rsiSupportCond andL ltL ltScalar
  exact causal_zipWith _
    (causal_zipWith _ (causal_comp_map _ (causal_rsiLine p.rsiPeriod))
      (causal_zipWith _ (causal_rsiLine p.rsiPeriod)
        (causal_shiftOne (causal_rsiLine p.rsiPeriod))))
    (causal_comp_map _ (causal_shiftOne (causal_rsiLine p.rsiPeriod)))

theorem causal_rsiResistanceCond (p : RSIParams) :
    Causal (fun bars => rsiResistanceCond bars p) := by
  unfold rsiResistanceCond andL gtL gtScalar
  exact causal_zipWith _
    (causal_zipWith _ (causal_comp_map _ (causal_rsiLine p.rsiPeriod))
      (causal_zipWith _ (causal_rsiLine p.rsiPeriod)
        (causal_shiftOne (causal_rsiLine p.rsiPeriod))))
    (causal_comp_map _ (causal_shiftOne (causal_rsiLine p.rsiPeriod)))

theorem causal_rsi_reversal (p : RSIParams) :
    Causal (fun bars => (rsiCalculate bars p Mode.train).reversal) := by
  have h : (fun bars => (rsiCalculate bars p Mode.train).reversal) =
      fun bars => selectRev (rsiSupportCond bars p) (rsiResistanceCond bars p) := rfl
  rw [h]
  exact causal_selectRev (causal_rsiSupportCond p) (causal_rsiResistanceCond p)

theorem causal_calc_reversal (sp : StratParams) :
    Causal (fun bars => (calcFrame sp bars Mode.train).reversal) := by
  cases sp with
  | kd p => exact causal_kd_reversal p
  | macd p => exact causal_macd_reversal p
  | rsi p => exact causal_rsi_reversal p

theorem calc_strong_eq_map (sp : StratParams) (bars : List Bar) (m : Mode) :
    (calcFrame sp bars m).is_strong =
      ((calcFrame sp bars m).reversal).map (fun r => decide (r ≠ Rev.none)) := by
  cases sp with
  | kd p => rfl
  | macd p =>
      by_cases hg : (p.fastPeriod : ℚ) * (3/2) > (p.slowPeriod : ℚ) <;>
        simp [calcFrame, macdCalculate, hg]
  | rsi p => rfl

theorem causal_calc_strong (sp : StratParams) :
    Causal (fun bars => (calcFrame sp bars Mode.train).is_strong) := by
  have h : (fun bars => (calcFrame sp bars Mode.train).is_strong) =
      fun bars => ((calcFrame sp bars Mode.train).reversal).map (fun r => decide (r ≠ Rev.none)) := by
    funext bars
    exact calc_strong_eq_map sp bars Mode.train
  rw [h]
  exact causal_comp_map _ (causal_calc_reversal sp)

theorem getq_congr_of_take {l1 l2 : List α} {n i : ℕ}
    (h : l1.take n = l2.take n) (hi : i < n) : l1[i]? = l2[i]? := by
  have e1 : (l1.take n)[i]? = l1[i]? := by simp [List.getElem?_take, hi]
  have e2 : (l2.take n)[i]? = l2[i]? := by simp [List.getElem?_take, hi]
  rw [← e1, ← e2, h]

/-- C1: for every bar history and every parameter assignment within the
declared search ranges, for each of the three strategies (KD, MACD, RSI), the
train-mode output of calculate (the per-bar reversal tag and is_strong flag)
at index i is unchanged under any mutation of the bars at indices strictly
greater than i (same length, identical first i+1 bars). -/
theorem train_signal_causality (sp : StratParams) (hsp : inSpace sp)
    (b1 b2 : List Bar) (i : ℕ)
    (hlen : b1.length = b2.length) (hpre : b1.take (i + 1) = b2.take (i + 1)) :
    ((calcFrame sp b1 Mode.train).reversal)[i]? =
      ((calcFrame sp b2 Mode.train).reversal)[i]? ∧
    ((calcFrame sp b1 Mode.train).is_strong)[i]? =
      ((calcFrame sp b2 Mode.train).is_strong)[i]? := by
  constructor
  · exact getq_congr_of_take
      ((causal_calc_reversal sp).2 b1 b2 (i + 1) hlen hpre) (Nat.lt_succ_self i)
  · exact getq_congr_of_take
      ((causal_calc_strong sp).2 b1 b2 (i + 1) hlen hpre) (Nat.lt_succ_self i)

/-! Pointwise toolkit: getElem? characterizations of the series combinators. -/

theorem seriesMap_getq (f : List α → β) (xs : List α) (i : ℕ) (h : i < xs.length) :
    (seriesMap f xs)[i]? = some (f (xs.take (i + 1))) := by
  simp [seriesMap, List.getElem?_map, List.getElem?_range, h]

theorem seriesMap_getq_oob (f : List α → β) (xs : List α) (i : ℕ) (h : xs.length ≤ i) :
    (seriesMap f xs)[i]? = Option.none := by
  apply List.getElem?_eq_none
  rw [length_seriesMap]
  exact h

theorem shiftOne_getq (xs : List FV) (i : ℕ) (h : i < xs.length) :
    (shiftOne xs)[i]? =
      some (if 1 ≤ i then xs.getD (i - 1) FV.nan else FV.nan) := by
  rw [shiftOne, seriesMap_getq _ _ _ h]
  have hlen : (xs.take (i + 1)).length = i + 1 := by
    rw [List.length_take]
    omega
  congr 1
  unfold prevOf
  rw [hlen]
  by_cases h1 : 1 ≤ i
  · have h2 : 2 ≤ i + 1 := by omega
    rw [if_pos h2, if_pos h1]
    have h3 : i + 1 - 2 = i - 1 := by omega
    rw [h3]
    unfold List.getD
    rw [List.get?_eq_getElem?, List.get?_eq_getElem?, List.getElem?_take]
    have h4 : i - 1 < i + 1 := by omega
    rw [if_pos h4]
  · have h2 : ¬ 2 ≤ i + 1 := by omega
    rw [if_neg h2, if_neg h1]

theorem zipWith_getq (g : α → β → γ) (xs : List α) (ys : List β) (i : ℕ) (da : α) (db : β)
    (h1 : i < xs.length) (h2 : i < ys.length) :
    (List.zipWith g xs ys)[i]? = some (g (xs.getD i da) (ys.getD i db)) := by
  have ha : xs[i]? = some xs[i] := List.getElem?_eq_getElem h1
  have hb : ys[i]? = some ys[i] := List.getElem?_eq_getElem h2
  rw [List.getElem?_zipWith, ha, hb]
  unfold List.getD
  rw [List.get?_eq_getElem?, List.get?_eq_getElem?, ha, hb]
  rfl

/-! Parameter store: update-rule and round-trip lemmas. -/

theorem sqlite_update_other_key (db : DBState) (p : StockParams) (c : String)
    (hc : c ≠ p.stock_code) : (sqliteUpdateStockParams db p) c = db c := by
  unfold sqliteUpdateStockParams dbInsert
  cases h : db p.stock_code with
  | none => simp [hc]
  | some cur =>
      by_cases h1 : cur.last_updated > p.last_updated
      · simp [h1]
      · by_cases h2 : p.last_updated > cur.last_updated <;> simp [h1, h2, hc]

theorem mongo_update_other_key (db : DBState) (p : StockParams) (c : String)
    (hc : c ≠ p.stock_code) : (mongoUpdateStockParams db p) c = db c := by
  unfold mongoUpdateStockParams dbInsert
  cases h : db p.stock_code with
  | none => simp [hc]
  | some cur =>
      by_cases h1 : cur.last_updated > p.last_updated <;> simp [h1, hc]

theorem sqlite_update_replaces (db : DBState) (p : StockParams)
    (hold : ∀ cur, db p.stock_code = some cur → cur.last_updated < p.last_updated) :
    (sqliteUpdateStockParams db p) p.stock_code = some p := by
  unfold sqliteUpdateStockParams dbInsert
  cases h : db p.stock_code with
  | none => simp
  | some cur =>
      have hlt := hold cur h
      have h1 : ¬ cur.last_updated > p.last_updated := by omega
      have h2 : p.last_updated > cur.last_updated := by omega
      simp [h1, h2]

theorem mongo_update_replaces (db : DBState) (p : StockParams)
    (hold : ∀ cur, db p.stock_code = some cur → cur.last_updated < p.last_updated) :
    (mongoUpdateStockParams db p) p.stock_code = some p := by
  unfold mongoUpdateStockParams dbInsert
  cases h : db p.stock_code with
  | none => simp
  | some cur =>
      have hlt := hold cur h
      have h1 : ¬ cur.last_updated > p.last_updated := by omega
      simp [h1]

/-- C2 counterexample: on the MongoDB backend an update whose timestamp
EQUALS the stored one replaces the stored record, so a subsequent update with
T2 = T1 and different content does not leave the stored record equal to A. -/
theorem mongo_equal_timestamp_replaces_stored_record :
    (mongoUpdateStockParams
        (dbInsert dbEmpty { stock_code := "s", best_params := "pa", meta_info := "ma",
                            performance := "fa", last_updated := 5, source_file := "a" })
        { stock_code := "s", best_params := "pb", meta_info := "mb",
          performance := "fb", last_updated := 5, source_file := "b" }) "s" =
      some { stock_code := "s", best_params := "pb", meta_info := "mb",
             performance := "fb", last_updated := 5, source_file := "b" } ∧
    ({ stock_code := "s", best_params := "pb", meta_info := "mb",
       performance := "fb", last_updated := 5, source_file := "b" } : StockParams) ≠
      { stock_code := "s", best_params := "pa", meta_info := "ma",
        performance := "fa", last_updated := 5, source_file := "a" } := by
  constructor
  · rfl
  · decide

/-- C2 (amended): on the SQLite backend the stored record is replaced only
when the incoming timestamp is strictly newer (an incoming timestamp that is
not strictly newer leaves the whole store unchanged, hence also appends
nothing); on the MongoDB backend a strictly older incoming timestamp leaves
the store unchanged, but an equal-or-newer incoming timestamp replaces the
record.  Neither backend maintains a history log. -/
theorem store_update_timestamp_rule (db : DBState) (p cur : StockParams)
    (h : db p.stock_code = some cur) :
    (p.last_updated ≤ cur.last_updated → sqliteUpdateStockParams db p = db) ∧
    (cur.last_updated < p.last_updated →
      (sqliteUpdateStockParams db p) p.stock_code = some p) ∧
    (p.last_updated < cur.last_updated → mongoUpdateStockParams db p = db) ∧
    (cur.last_updated ≤ p.last_updated →
      (mongoUpdateStockParams db p) p.stock_code = some p) := by
  refine ⟨fun hle => ?_, fun hlt => ?_, fun hlt => ?_, fun hle => ?_⟩
  · unfold sqliteUpdateStockParams
    rw [h]
    by_cases h1 : cur.last_updated > p.last_updated
    · simp [h1]
    · have h2 : ¬ p.last_updated > cur.last_updated := by omega
      simp [h1, h2]
  · exact sqlite_update_replaces db p (fun c hc => by rw [h] at hc; cases hc; omega)
  · unfold mongoUpdateStockParams
    rw [h]
    have h1 : cur.last_updated > p.last_updated := hlt
    simp [h1]
  · unfold mongoUpdateStockParams dbInsert
    rw [h]
    have h1 : ¬ cur.last_updated > p.last_updated := by omega
    simp [h1]

/-- C2 witness: record A at T1 = 7, incoming B at T2 = 4 < T1: the SQLite
store is unchanged. -/
theorem store_update_timestamp_rule_witness :
    sqliteUpdateStockParams
        (dbInsert dbEmpty { stock_code := "s", best_params := "pa", meta_info := "ma",
                            performance := "fa", last_updated := 7, source_file := "a" })
        { stock_code := "s", best_params := "pb", meta_info := "mb",
          performance := "fb", last_updated := 4, source_file := "b" } =
      dbInsert dbEmpty { stock_code := "s", best_params := "pa", meta_info := "ma",
                         performance := "fa", last_updated := 7, source_file := "a" } :=
  (store_update_timestamp_rule
    (dbInsert dbEmpty { stock_code := "s", best_params := "pa", meta_info := "ma",
                        performance := "fa", last_updated := 7, source_file := "a" })
    { stock_code := "s", best_params := "pb", meta_info := "mb",
      performance := "fb", last_updated := 4, source_file := "b" }
    { stock_code := "s", best_params := "pa", meta_info := "ma",
      performance := "fa", last_updated := 7, source_file := "a" }
    (by simp [dbInsert])).1 (by decide)

theorem update_other_key (upd : DBState → StockParams → DBState)
    (hupd : upd = sqliteUpdateStockParams ∨ upd = mongoUpdateStockParams)
    (db : DBState) (p : StockParams) (c : String) (hc : c ≠ p.stock_code) :
    (upd db p) c = db c := by
  cases hupd with
  | inl h => rw [h]; exact sqlite_update_other_key db p c hc
  | inr h => rw [h]; exact mongo_update_other_key db p c hc

theorem update_replaces (upd : DBState → StockParams → DBState)
    (hupd : upd = sqliteUpdateStockParams ∨ upd = mongoUpdateStockParams)
    (db : DBState) (p : StockParams)
    (hold : ∀ cur, db p.stock_code = some cur → cur.last_updated < p.last_updated) :
    (upd db p) p.stock_code = some p := by
  cases hupd with
  | inl h => rw [h]; exact sqlite_update_replaces db p hold
  | inr h => rw [h]; exact mongo_update_replaces db p hold

theorem fold_update_other (upd : DBState → StockParams → DBState)
    (hupd : upd = sqliteUpdateStockParams ∨ upd = mongoUpdateStockParams)
    (ps : List StockParams) (db : DBState) (c : String)
    (hc : ∀ p ∈ ps, c ≠ p.stock_code) :
    (ps.foldl upd db) c = db c := by
  induction ps generalizing db with
  | nil => rfl
  | cons a t ih =>
      rw [List.foldl_cons, ih (upd db a) (fun p hp => hc p (List.mem_cons_of_mem a hp))]
      exact update_other_key upd hupd db a c (hc a (List.mem_cons_self a t))

theorem import_fold_lookup (upd : DBState → StockParams → DBState)
    (hupd : upd = sqliteUpdateStockParams ∨ upd = mongoUpdateStockParams)
    (T : ℤ) (path : String) (l : List ParamsFileEntry) (db : DBState)
    (e : ParamsFileEntry) (he : e ∈ l)
    (hnodup : (l.map ParamsFileEntry.code).Nodup)
    (hold : ∀ cur, db e.code = some cur → cur.last_updated < T) :
    ((parseParamsFile { path := path, timestamp := T, entries := l }).foldl upd db) e.code
      = some { stock_code := e.code, best_params := e.best_params, meta_info := e.meta_info, performance := e.performance, last_updated := T, source_file := path } := by
  unfold parseParamsFile
  induction l generalizing db with
  | nil => cases he
  | cons a t ih =>
      rw [List.map_cons, List.foldl_cons]
      rcases List.mem_cons.mp he with rfl | het
      · have hgoal : (upd db ({ stock_code := e.code, best_params := e.best_params, meta_info := e.meta_info, performance := e.performance, last_updated := T, source_file := path } : StockParams)) e.code = some ({ stock_code := e.code, best_params := e.best_params, meta_info := e.meta_info, performance := e.performance, last_updated := T, source_file := path } : StockParams) :=
          update_replaces upd hupd db _ (fun cur hc => hold cur hc)
        have hnotin : ∀ p ∈ t.map (fun x => ({ stock_code := x.code, best_params := x.best_params, meta_info := x.meta_info, performance := x.performance, last_updated := T, source_file := path } : StockParams)), e.code ≠ p.stock_code := by
          intro p hp
          rcases List.mem_map.mp hp with ⟨x, hx, rfl⟩
          intro hcontra
          have hmem : e.code ∈ t.map ParamsFileEntry.code :=
            List.mem_map.mpr ⟨x, hx, hcontra.symm⟩
          exact (List.nodup_cons.mp hnodup).1 hmem
        rw [fold_update_other upd hupd _ _ _ hnotin, hgoal]
      · have hne : e.code ≠ a.code := by
          intro hcontra
          have hmem : a.code ∈ t.map ParamsFileEntry.code :=
            List.mem_map.mpr ⟨e, het, hcontra⟩
          exact (List.nodup_cons.mp hnodup).1 hmem
        refine ih _ het (List.nodup_cons.mp hnodup).2 ?_
        intro cur hc
        rw [update_other_key upd hupd db _ _ hne] at hc
        exact hold cur hc

/-- C5 (amended): import_params followed by get_stock_params returns the
imported best_params/meta_info/performance for every symbol of a well-formed
file, on both backends, provided the store holds no record for that symbol
with a timestamp greater than OR EQUAL to the file timestamp (the unamended
claim allowed an equal timestamp, on which the SQLite backend keeps the old
record). -/
theorem import_params_roundtrip (upd : DBState → StockParams → DBState)
    (hupd : upd = sqliteUpdateStockParams ∨ upd = mongoUpdateStockParams)
    (db : DBState) (file : ParamsFile) (e : ParamsFileEntry)
    (he : e ∈ file.entries)
    (hnodup : (file.entries.map ParamsFileEntry.code).Nodup)
    (hold : ∀ cur, db e.code = some cur → cur.last_updated < file.timestamp) :
    get_stock_params (import_params upd db file) e.code =
      some { best_params := e.best_params, meta_info := e.meta_info,
             performance := e.performance } := by
  unfold get_stock_params import_params
  have hfile : ({ path := file.path, timestamp := file.timestamp, entries := file.entries } : ParamsFile) = file := rfl
  rw [show parseParamsFile file = parseParamsFile { path := file.path, timestamp := file.timestamp, entries := file.entries } from by rw [hfile]]
  rw [import_fold_lookup upd hupd file.timestamp file.path file.entries db e he hnodup hold]

/-- C5 witness: importing a one-symbol file into an empty SQLite store and
reading it back returns the imported payload. -/
theorem import_params_roundtrip_witness :
    get_stock_params
        (import_params sqliteUpdateStockParams dbEmpty
          { path := "params_20240505", timestamp := 5,
            entries := [{ code := "s", best_params := "bp", meta_info := "mi",
                          performance := "pf" }] }) "s" =
      some { best_params := "bp", meta_info := "mi", performance := "pf" } :=
  import_params_roundtrip sqliteUpdateStockParams (Or.inl rfl) dbEmpty
    { path := "params_20240505", timestamp := 5,
      entries := [{ code := "s", best_params := "bp", meta_info := "mi",
                    performance := "pf" }] }
    { code := "s", best_params := "bp", meta_info := "mi", performance := "pf" }
    (by simp) (by simp) (by intro cur hc; simp [dbEmpty] at hc)

/-- C5 counterexample: with an existing record whose timestamp EQUALS the
file timestamp (so no strictly newer record exists), the SQLite backend keeps
the old payload and the round-trip property of the unamended claim fails. -/
theorem import_params_equal_timestamp_not_roundtrip :
    get_stock_params
        (import_params sqliteUpdateStockParams
          (dbInsert dbEmpty { stock_code := "s", best_params := "oldbp",
                              meta_info := "oldmi", performance := "oldpf",
                              last_updated := 5, source_file := "old" })
          { path := "params_20240505", timestamp := 5,
            entries := [{ code := "s", best_params := "newbp", meta_info := "newmi",
                          performance := "newpf" }] }) "s" ≠
      some { best_params := "newbp", meta_info := "newmi", performance := "newpf" } := by
  decide

/-- C1 witness: two 3-bar histories agreeing on their first two bars but
differing at index 2; the KD train signal at index 1 coincides. -/
theorem train_signal_causality_witness :
    ((calcFrame (StratParams.kd { kPeriod := 9, dPeriod := 3, overbought := 55, oversold := 10 }) [{ op := 1, high := 2, low := 1, close := 1, volume := 0 }, { op := 1, high := 3, low := 1, close := 2, volume := 0 }, { op := 1, high := 4, low := 1, close := 3, volume := 0 }] Mode.train).reversal)[1]? =
      ((calcFrame (StratParams.kd { kPeriod := 9, dPeriod := 3, overbought := 55, oversold := 10 }) [{ op := 1, high := 2, low := 1, close := 1, volume := 0 }, { op := 1, high := 3, low := 1, close := 2, volume := 0 }, { op := 2, high := 9, low := 1, close := 5, volume := 7 }] Mode.train).reversal)[1]? ∧
    ((calcFrame (StratParams.kd { kPeriod := 9, dPeriod := 3, overbought := 55, oversold := 10 }) [{ op := 1, high := 2, low := 1, close := 1, volume := 0 }, { op := 1, high := 3, low := 1, close := 2, volume := 0 }, { op := 1, high := 4, low := 1, close := 3, volume := 0 }] Mode.train).is_strong)[1]? =
      ((calcFrame (StratParams.kd { kPeriod := 9, dPeriod := 3, overbought := 55, oversold := 10 }) [{ op := 1, high := 2, low := 1, close := 1, volume := 0 }, { op := 1, high := 3, low := 1, close := 2, volume := 0 }, { op := 2, high := 9, low := 1, close := 5, volume := 7 }] Mode.train).is_strong)[1]? :=
  train_signal_causality
    (StratParams.kd { kPeriod := 9, dPeriod := 3, overbought := 55, oversold := 10 })
    (by decide)
    [{ op := 1, high := 2, low := 1, close := 1, volume := 0 }, { op := 1, high := 3, low := 1, close := 2, volume := 0 }, { op := 1, high := 4, low := 1, close := 3, volume := 0 }]
    [{ op := 1, high := 2, low := 1, close := 1, volume := 0 }, { op := 1, high := 3, low := 1, close := 2, volume := 0 }, { op := 2, high := 9, low := 1, close := 5, volume := 7 }]
    1 (by decide) (by decide)

/-! Optimizer score decomposition (C8). -/

theorem f1_formula_eq_harmonic (a b : ℚ) (ha : 0 ≤ a) (hb : 0 ≤ b) :
    (if 0 < a + b then 2 * (a * b) / (a + b) else 0) = harmonicMean2 a b := by
  unfold harmonicMean2
  rcases eq_or_lt_of_le ha with ha0 | hapos
  · rw [← ha0]
    by_cases hs : (0 : ℚ) < 0 + b <;> simp [hs]
  · rcases eq_or_lt_of_le hb with hb0 | hbpos
    · rw [← hb0]
      by_cases hs : (0 : ℚ) < a + 0 <;> simp [hs]
    · have hs : 0 < a + b := by linarith
      rw [if_pos hs, if_pos ⟨hapos, hbpos⟩]
      ring_nf

theorem harmonic_combination_eq (a b : ℚ) :
    (if 0 < a ∧ 0 < b then 2 / (1 / a + 1 / b) else 0) = harmonicMean2 a b := by
  unfold harmonicMean2
  by_cases h : 0 < a ∧ 0 < b
  · rw [if_pos h, if_pos h]
    obtain ⟨ha, hb⟩ := h
    have hab : a + b ≠ 0 := ne_of_gt (by linarith)
    field_simp
    ring
  · rw [if_neg h, if_neg h]

/-- C8 (amended): each strategy's score is its base score times a density
penalty min(1, c/target) where c is the SMALLER of the two per-side strong
signal counts, and where the divisor is the full density target for KD but
density_target/3 for MACD and RSI. -/
theorem calculate_score_decomposition (r : EvalResult) (t : ℚ)
    (h1 : 0 ≤ r.strong_support_win_rate) (h2 : 0 ≤ r.support_recall)
    (h3 : 0 ≤ r.strong_resistance_win_rate) (h4 : 0 ≤ r.resistance_recall) :
    KD_calculate_score r t = specBaseScoreKD r * min 1 (minStrongCount r / t) ∧
    MACD_calculate_score r t = specBaseScoreWinRate r * min 1 (minStrongCount r / (t / 3)) ∧
    RSI_calculate_score r t = specBaseScoreWinRate r * min 1 (minStrongCount r / (t / 3)) := by
  refine ⟨?_, ?_, ?_⟩
  · simp only [KD_calculate_score, specBaseScoreKD, minStrongCount]
    rw [f1_formula_eq_harmonic _ _ h1 h2, f1_formula_eq_harmonic _ _ h3 h4,
      harmonic_combination_eq]
  · simp only [MACD_calculate_score, specBaseScoreWinRate, minStrongCount]
    rw [harmonic_combination_eq]
  · simp only [RSI_calculate_score, specBaseScoreWinRate, minStrongCount]
    rw [harmonic_combination_eq]

/-- C8 witness at a concrete evaluation result and target. -/
theorem calculate_score_decomposition_witness :
    KD_calculate_score { support_win_rate := 1/2, support_signals_count := 4, resistance_win_rate := 1/2, resistance_signals_count := 4, strong_support_win_rate := 1/2, strong_support_signals_count := 2, strong_resistance_win_rate := 1/3, strong_resistance_signals_count := 3, support_recall := 1/2, resistance_recall := 3/4 } 6 =
      specBaseScoreKD { support_win_rate := 1/2, support_signals_count := 4, resistance_win_rate := 1/2, resistance_signals_count := 4, strong_support_win_rate := 1/2, strong_support_signals_count := 2, strong_resistance_win_rate := 1/3, strong_resistance_signals_count := 3, support_recall := 1/2, resistance_recall := 3/4 } *
        min 1 (minStrongCount { support_win_rate := 1/2, support_signals_count := 4, resistance_win_rate := 1/2, resistance_signals_count := 4, strong_support_win_rate := 1/2, strong_support_signals_count := 2, strong_resistance_win_rate := 1/3, strong_resistance_signals_count := 3, support_recall := 1/2, resistance_recall := 3/4 } / 6) :=
  (calculate_score_decomposition { support_win_rate := 1/2, support_signals_count := 4, resistance_win_rate := 1/2, resistance_signals_count := 4, strong_support_win_rate := 1/2, strong_support_signals_count := 2, strong_resistance_win_rate := 1/3, strong_resistance_signals_count := 3, support_recall := 1/2, resistance_recall := 3/4 } 6
    (by norm_num) (by norm_num) (by norm_num) (by norm_num)).1

/-- C8 counterexample: for MACD the density divisor is target/3, so the score
does not equal base * min(1, strong_count/density_target) as the claim words
it: at strong win rates 1/2 and counts 1 with target 6, the code yields 1/4
while the claimed formula yields 1/12. -/
theorem macd_score_penalty_divisor_counterexample :
    ¬ (MACD_calculate_score { support_win_rate := 0, support_signals_count := 0, resistance_win_rate := 0, resistance_signals_count := 0, strong_support_win_rate := 1/2, strong_support_signals_count := 1, strong_resistance_win_rate := 1/2, strong_resistance_signals_count := 1, support_recall := 0, resistance_recall := 0 } 6 =
        specBaseScoreWinRate { support_win_rate := 0, support_signals_count := 0, resistance_win_rate := 0, resistance_signals_count := 0, strong_support_win_rate := 1/2, strong_support_signals_count := 1, strong_resistance_win_rate := 1/2, strong_resistance_signals_count := 1, support_recall := 0, resistance_recall := 0 } *
          min 1 (minStrongCount { support_win_rate := 0, support_signals_count := 0, resistance_win_rate := 0, resistance_signals_count := 0, strong_support_win_rate := 1/2, strong_support_signals_count := 1, strong_resistance_win_rate := 1/2, strong_resistance_signals_count := 1, support_recall := 0, resistance_recall := 0 } / 6)) := by
  unfold MACD_calculate_score specBaseScoreWinRate minStrongCount harmonicMean2
  norm_num

/-! Win-rate bounds (C3). -/

theorem ratio_if_bounds (a b : ℕ) (hab : a ≤ b) :
    0 ≤ (if 0 < b then (a : ℚ) / (b : ℚ) else 0) ∧
      (if 0 < b then (a : ℚ) / (b : ℚ) else 0) ≤ 1 := by
  by_cases hb : 0 < b
  · rw [if_pos hb]
    have hb' : (0 : ℚ) < b := by exact_mod_cast hb
    constructor
    · positivity
    · rw [div_le_one hb']
      exact_mod_cast hab
  · rw [if_neg hb]
    norm_num

/-- C3: every win rate, strong win rate and recall of calculate_win_rate lies
in [0, 1], for any frame and any valid arguments. -/
theorem win_rate_bounds (f : SignalFrame) (look_ahead : ℕ) (target_multiplier : ℚ)
    (atr_period : ℕ) (check_high_low : Bool)
    (hla : 1 ≤ look_ahead) (hatr : 1 ≤ atr_period) :
    let r := calculate_win_rate f look_ahead target_multiplier atr_period check_high_low
    (0 ≤ r.support_win_rate ∧ r.support_win_rate ≤ 1) ∧
    (0 ≤ r.resistance_win_rate ∧ r.resistance_win_rate ≤ 1) ∧
    (0 ≤ r.strong_support_win_rate ∧ r.strong_support_win_rate ≤ 1) ∧
    (0 ≤ r.strong_resistance_win_rate ∧ r.strong_resistance_win_rate ≤ 1) ∧
    (0 ≤ r.support_recall ∧ r.support_recall ≤ 1) ∧
    (0 ≤ r.resistance_recall ∧ r.resistance_recall ≤ 1) := by
  intro r
  refine ⟨?_, ?_, ?_, ?_, ?_, ?_⟩ <;>
    simp only [r, calculate_win_rate] <;>
    first
      | exact ratio_if_bounds _ _ (List.countP_le_length _)
      | exact ratio_if_bounds _ _ (List.length_filter_le _ _)

/-- C3 witness at a concrete two-bar frame with one support signal. -/
theorem win_rate_bounds_witness :
    let r := calculate_win_rate { bars := [{ op := 1, high := 2, low := 1, close := 1, volume := 0 }, { op := 1, high := 3, low := 1, close := 2, volume := 0 }], reversal := [Rev.support, Rev.none], is_strong := [true, false] } 1 1 2 true
    (0 ≤ r.support_win_rate ∧ r.support_win_rate ≤ 1) ∧
    (0 ≤ r.resistance_win_rate ∧ r.resistance_win_rate ≤ 1) ∧
    (0 ≤ r.strong_support_win_rate ∧ r.strong_support_win_rate ≤ 1) ∧
    (0 ≤ r.strong_resistance_win_rate ∧ r.strong_resistance_win_rate ≤ 1) ∧
    (0 ≤ r.support_recall ∧ r.support_recall ≤ 1) ∧
    (0 ≤ r.resistance_recall ∧ r.resistance_recall ≤ 1) :=
  win_rate_bounds { bars := [{ op := 1, high := 2, low := 1, close := 1, volume := 0 }, { op := 1, high := 3, low := 1, close := 2, volume := 0 }], reversal := [Rev.support, Rev.none], is_strong := [true, false] } 1 1 2 true
    (by decide) (by decide)

/-! is_strong invariant and recall (C10). -/

theorem zip3M_snd_of_map (g : Rev → Bool) :
    ∀ (rev : List Rev) (wn : List Bool) (x : Rev × Bool × Bool),
      x ∈ zip3M rev (rev.map g) wn → x.2.1 = g x.1 := by
  intro rev
  induction rev with
  | nil =>
      intro wn x hx
      simp [zip3M] at hx
  | cons r rs ih =>
      intro wn x hx
      cases wn with
      | nil => simp [zip3M] at hx
      | cons w ws =>
          rw [List.map_cons] at hx
          simp only [zip3M] at hx
          rcases List.mem_cons.mp hx with rfl | hx2
          · rfl
          · exact ih ws x hx2

theorem recall_eq_one_of_strong_map (f : SignalFrame) (la : ℕ) (mult : ℚ)
    (atrp : ℕ) (chl : Bool)
    (hstrong : f.is_strong = f.reversal.map (fun r => decide (r ≠ Rev.none))) :
    (0 < (calculate_win_rate f la mult atrp chl).support_signals_count →
      (calculate_win_rate f la mult atrp chl).support_recall = 1) ∧
    (0 < (calculate_win_rate f la mult atrp chl).resistance_signals_count →
      (calculate_win_rate f la mult atrp chl).resistance_recall = 1) := by
  constructor
  · simp only [calculate_win_rate]
    rw [hstrong]
    intro hpos
    have hss : ((zip3M f.reversal (f.reversal.map (fun r => decide (r ≠ Rev.none))) (support_win_list f la mult atrp chl)).filter (fun x => decide (x.1 = Rev.support))).filter (fun x => x.2.1) = (zip3M f.reversal (f.reversal.map (fun r => decide (r ≠ Rev.none))) (support_win_list f la mult atrp chl)).filter (fun x => decide (x.1 = Rev.support)) := by
      apply List.filter_eq_self.mpr
      intro x hx
      obtain ⟨hmem, hpred⟩ := List.mem_filter.mp hx
      have h1 : x.1 = Rev.support := of_decide_eq_true hpred
      have h2 := zip3M_snd_of_map (fun r => decide (r ≠ Rev.none)) f.reversal (support_win_list f la mult atrp chl) x hmem
      rw [h2, h1]
      decide
    rw [hss]
    rw [if_pos hpos]
    apply div_self
    have : (0 : ℚ) < ((zip3M f.reversal (f.reversal.map (fun r => decide (r ≠ Rev.none))) (support_win_list f la mult atrp chl)).filter (fun x => decide (x.1 = Rev.support))).length := by
      exact_mod_cast hpos
    exact ne_of_gt this
  · simp only [calculate_win_rate]
    rw [hstrong]
    intro hpos
    have hss : ((zip3M f.reversal (f.reversal.map (fun r => decide (r ≠ Rev.none))) (resistance_win_list f la mult atrp chl)).filter (fun x => decide (x.1 = Rev.resistance))).filter (fun x => x.2.1) = (zip3M f.reversal (f.reversal.map (fun r => decide (r ≠ Rev.none))) (resistance_win_list f la mult atrp chl)).filter (fun x => decide (x.1 = Rev.resistance)) := by
      apply List.filter_eq_self.mpr
      intro x hx
      obtain ⟨hmem, hpred⟩ := List.mem_filter.mp hx
      have h1 : x.1 = Rev.resistance := of_decide_eq_true hpred
      have h2 := zip3M_snd_of_map (fun r => decide (r ≠ Rev.none)) f.reversal (resistance_win_list f la mult atrp chl) x hmem
      rw [h2, h1]
      decide
    rw [hss]
    rw [if_pos hpos]
    apply div_self
    have : (0 : ℚ) < ((zip3M f.reversal (f.reversal.map (fun r => decide (r ≠ Rev.none))) (resistance_win_list f la mult atrp chl)).filter (fun x => decide (x.1 = Rev.resistance))).length := by
      exact_mod_cast hpos
    exact ne_of_gt this

/-- C10: for all three strategies in both modes the output frame satisfies
is_strong = 1 exactly when reversal is not none, and consequently whenever
calculate_win_rate finds at least one support (resp. resistance) signal the
corresponding recall equals 1. -/
theorem strong_flag_and_recall (sp : StratParams) (bars : List Bar) (mode : Mode)
    (la : ℕ) (mult : ℚ) (atrp : ℕ) (chl : Bool) :
    (calcFrame sp bars mode).is_strong =
      ((calcFrame sp bars mode).reversal).map (fun r => decide (r ≠ Rev.none)) ∧
    (0 < (calculate_win_rate (calcFrame sp bars mode) la mult atrp chl).support_signals_count →
      (calculate_win_rate (calcFrame sp bars mode) la mult atrp chl).support_recall = 1) ∧
    (0 < (calculate_win_rate (calcFrame sp bars mode) la mult atrp chl).resistance_signals_count →
      (calculate_win_rate (calcFrame sp bars mode) la mult atrp chl).resistance_recall = 1) := by
  have h := calc_strong_eq_map sp bars mode
  exact ⟨h, (recall_eq_one_of_strong_map _ la mult atrp chl h).1,
    (recall_eq_one_of_strong_map _ la mult atrp chl h).2⟩

/-- C10 witness: a two-bar history on which MACD(1,2,6) emits one support
signal in train mode; the recall is 1. -/
theorem strong_flag_and_recall_witness :
    (calcFrame (StratParams.macd { fastPeriod := 1, slowPeriod := 2, signalPeriod := 6 }) [{ op := 1, high := 2, low := 1, close := 1, volume := 0 }, { op := 1, high := 3, low := 1, close := 2, volume := 0 }] Mode.train).is_strong =
      ((calcFrame (StratParams.macd { fastPeriod := 1, slowPeriod := 2, signalPeriod := 6 }) [{ op := 1, high := 2, low := 1, close := 1, volume := 0 }, { op := 1, high := 3, low := 1, close := 2, volume := 0 }] Mode.train).reversal).map (fun r => decide (r ≠ Rev.none)) ∧
    (calculate_win_rate (calcFrame (StratParams.macd { fastPeriod := 1, slowPeriod := 2, signalPeriod := 6 }) [{ op := 1, high := 2, low := 1, close := 1, volume := 0 }, { op := 1, high := 3, low := 1, close := 2, volume := 0 }] Mode.train) 1 1 2 true).support_recall = 1 :=
  ⟨(strong_flag_and_recall (StratParams.macd { fastPeriod := 1, slowPeriod := 2, signalPeriod := 6 }) [{ op := 1, high := 2, low := 1, close := 1, volume := 0 }, { op := 1, high := 3, low := 1, close := 2, volume := 0 }] Mode.train 1 1 2 true).1,
   (strong_flag_and_recall (StratParams.macd { fastPeriod := 1, slowPeriod := 2, signalPeriod := 6 }) [{ op := 1, high := 2, low := 1, close := 1, volume := 0 }, { op := 1, high := 3, low := 1, close := 2, volume := 0 }] Mode.train 1 1 2 true).2.1 (by with_unfolding_all decide)⟩

/-! Optimization objective (C4). -/

theorem calcFrame_no_explicit_column (sp : StratParams) (bars : List Bar) (m : Mode) :
    (calcFrame sp bars m).is_strong_explicit = Option.none := by
  cases sp with
  | kd p => rfl
  | macd p =>
      by_cases hg : (p.fastPeriod : ℚ) * (3/2) > (p.slowPeriod : ℚ) <;>
        simp [calcFrame, macdCalculate, hg]
  | rsi p => rfl

/-- C4: the objective never returns a score at all.  Optimization.__call__
resolves calculate_win_rate to the legacy KD.py function (star-imported after
nothing was imported from tool.py), and that function reads the
is_strong_explicit column which no indicators.py frame carries, so every
proposal evaluation fails with KeyError instead of yielding score 0. -/
theorem optimization_call_always_keyerror (sp : StratParams) (df : List Bar)
    (look_ahead : ℕ) (target_multiplier : ℚ) (atr_period : ℕ)
    (signal_count_target : ℚ) :
    optimizationCall sp df look_ahead target_multiplier atr_period signal_count_target =
      Except.error "KeyError: is_strong_explicit" := by
  unfold optimizationCall legacy_calculate_win_rate
  rw [calcFrame_no_explicit_column]

/-- A concrete KD proposal within the search space on a concrete three-bar
history fails with KeyError (independent evaluation of the failing input). -/
theorem optimization_call_keyerror_at_concrete_input :
    optimizationCall (StratParams.kd { kPeriod := 9, dPeriod := 3, overbought := 55, oversold := 10 }) [{ op := 1, high := 2, low := 1, close := 1, volume := 0 }, { op := 1, high := 3, low := 1, close := 2, volume := 0 }, { op := 1, high := 4, low := 1, close := 3, volume := 0 }] 10 1 20 9 =
      Except.error "KeyError: is_strong_explicit" := rfl

/-! MACD oscillator and signal characterization (C6). -/

theorem length_ewmMean (span : ℕ) (xs : List ℚ) : (ewmMean span xs).length = xs.length := by
  unfold ewmMean
  exact length_seriesMap _ _

theorem length_macdLine (close : List ℚ) (fp sp : ℕ) :
    (macdLine close fp sp).length = close.length := by
  unfold macdLine
  rw [List.length_zipWith, length_ewmMean, length_ewmMean, min_self]

theorem length_macdSignalLine (close : List ℚ) (fp sp sigp : ℕ) :
    (macdSignalLine close fp sp sigp).length = close.length := by
  unfold macdSignalLine
  rw [length_ewmMean, length_macdLine]

theorem length_closes (bars : List Bar) : (closes bars).length = bars.length := by
  unfold closes
  exact List.length_map _ _

theorem length_macdMline (bars : List Bar) (p : MACDParams) :
    (macdMline bars p).length = bars.length := by
  unfold macdMline
  rw [List.length_map, length_macdLine, length_closes]

theorem length_macdSline (bars : List Bar) (p : MACDParams) :
    (macdSline bars p).length = bars.length := by
  unfold macdSline
  rw [List.length_map, length_macdSignalLine, length_closes]

theorem getD_of_getq {l : List α} {i : ℕ} {v : α} (h : l[i]? = some v) (d : α) :
    l.getD i d = v := by
  unfold List.getD
  rw [List.get?_eq_getElem?, h]
  rfl

theorem getD_map_num (l : List ℚ) (i : ℕ) (h : i < l.length) :
    (l.map FV.num).getD i FV.nan = FV.num (l.getD i 0) := by
  have h1 : (l.map FV.num)[i]? = some (FV.num l[i]) := by
    rw [List.getElem?_map, List.getElem?_eq_getElem h]
    rfl
  rw [getD_of_getq h1, getD_of_getq (List.getElem?_eq_getElem h)]

theorem flt_num (a b : ℚ) : FV.flt (FV.num a) (FV.num b) = decide (a < b) := rfl

theorem fle_num (a b : ℚ) : FV.fle (FV.num a) (FV.num b) = decide (a ≤ b) := rfl

/-- C6 counterexample: on two concrete bars with ATR = 2, the macd column of
the source (raw EMA difference) differs from the spec's ATR-normalized
oscillator. -/
theorem macd_oscillator_not_atr_normalized :
    macdLine (closes [{ op := 1, high := 3, low := 1, close := 1, volume := 0 }, { op := 2, high := 3, low := 1, close := 2, volume := 0 }]) 6 12 ≠
      specMacdOscillator [{ op := 1, high := 3, low := 1, close := 1, volume := 0 }, { op := 2, high := 3, low := 1, close := 2, volume := 0 }] 6 12 := by
  with_unfolding_all decide

theorem map_getq (f : α → β) (xs : List α) (i : ℕ) (d : α) (h : i < xs.length) :
    (xs.map f)[i]? = some (f (xs.getD i d)) := by
  rw [List.getElem?_map, List.getElem?_eq_getElem h, getD_of_getq (List.getElem?_eq_getElem h)]
  rfl

theorem macdSupportCond_getq (bars : List Bar) (p : MACDParams) (i : ℕ) (hi : i < bars.length) :
    (macdSupportCond bars p)[i]? = some (
      (decide ((macdSignalLine (closes bars) p.fastPeriod p.slowPeriod p.signalPeriod).getD i 0 < (macdLine (closes bars) p.fastPeriod p.slowPeriod).getD i 0) &&
       (if 1 ≤ i then decide ((macdLine (closes bars) p.fastPeriod p.slowPeriod).getD (i-1) 0 ≤ (macdSignalLine (closes bars) p.fastPeriod p.slowPeriod p.signalPeriod).getD (i-1) 0) else false)) &&
      decide (0 < (macdLine (closes bars) p.fastPeriod p.slowPeriod).getD i 0)) := by
  have hmq : i < (macdLine (closes bars) p.fastPeriod p.slowPeriod).length := by
    rw [length_macdLine, length_closes]; exact hi
  have hsq : i < (macdSignalLine (closes bars) p.fastPeriod p.slowPeriod p.signalPeriod).length := by
    rw [length_macdSignalLine, length_closes]; exact hi
  have hM : i < (macdMline bars p).length := by rw [length_macdMline]; exact hi
  have hS : i < (macdSline bars p).length := by rw [length_macdSline]; exact hi
  have hshM : i < (shiftOne (macdMline bars p)).length := by
    unfold shiftOne; rw [length_seriesMap]; exact hM
  have hshS : i < (shiftOne (macdSline bars p)).length := by
    unfold shiftOne; rw [length_seriesMap]; exact hS
  have eM : (macdMline bars p).getD i FV.nan =
      FV.num ((macdLine (closes bars) p.fastPeriod p.slowPeriod).getD i 0) := by
    unfold macdMline; exact getD_map_num _ _ hmq
  have eS : (macdSline bars p).getD i FV.nan =
      FV.num ((macdSignalLine (closes bars) p.fastPeriod p.slowPeriod p.signalPeriod).getD i 0) := by
    unfold macdSline; exact getD_map_num _ _ hsq
  have eShM : (shiftOne (macdMline bars p)).getD i FV.nan =
      (if 1 ≤ i then (macdMline bars p).getD (i - 1) FV.nan else FV.nan) :=
    getD_of_getq (shiftOne_getq _ i hM) _
  have eShS : (shiftOne (macdSline bars p)).getD i FV.nan =
      (if 1 ≤ i then (macdSline bars p).getD (i - 1) FV.nan else FV.nan) :=
    getD_of_getq (shiftOne_getq _ i hS) _
  have e1 : (gtL (macdMline bars p) (macdSline bars p))[i]? =
      some (FV.flt ((macdSline bars p).getD i FV.nan) ((macdMline bars p).getD i FV.nan)) :=
    zipWith_getq _ _ _ i FV.nan FV.nan hM hS
  have e2 : (leL (shiftOne (macdMline bars p)) (shiftOne (macdSline bars p)))[i]? =
      some (FV.fle ((shiftOne (macdMline bars p)).getD i FV.nan)
        ((shiftOne (macdSline bars p)).getD i FV.nan)) :=
    zipWith_getq _ _ _ i FV.nan FV.nan hshM hshS
  have e3 : (gtScalar (macdMline bars p) 0)[i]? =
      some (FV.flt (FV.num 0) ((macdMline bars p).getD i FV.nan)) :=
    map_getq _ _ i FV.nan hM
  have h12 : i < (andL (gtL (macdMline bars p) (macdSline bars p)) (leL (shiftOne (macdMline bars p)) (shiftOne (macdSline bars p)))).length := by
    unfold andL gtL leL
    rw [List.length_zipWith, List.length_zipWith, List.length_zipWith]
    omega
  have h3 : i < (gtScalar (macdMline bars p) 0).length := by
    unfold gtScalar
    rw [List.length_map]
    exact hM
  have e12 : (andL (gtL (macdMline bars p) (macdSline bars p)) (leL (shiftOne (macdMline bars p)) (shiftOne (macdSline bars p))))[i]? =
      some (((gtL (macdMline bars p) (macdSline bars p)).getD i false) &&
        ((leL (shiftOne (macdMline bars p)) (shiftOne (macdSline bars p))).getD i false)) := by
    unfold andL
    exact zipWith_getq _ _ _ i false false (by unfold gtL; rw [List.length_zipWith]; omega)
      (by unfold leL; rw [List.length_zipWith]; unfold shiftOne; rw [length_seriesMap, length_seriesMap]; omega)
  have efinal : (macdSupportCond bars p)[i]? =
      some ((((gtL (macdMline bars p) (macdSline bars p)).getD i false) &&
        ((leL (shiftOne (macdMline bars p)) (shiftOne (macdSline bars p))).getD i false)) &&
        ((gtScalar (macdMline bars p) 0).getD i false)) := by
    unfold macdSupportCond
    have := zipWith_getq (fun a b => a && b) (andL (gtL (macdMline bars p) (macdSline bars p)) (leL (shiftOne (macdMline bars p)) (shiftOne (macdSline bars p)))) (gtScalar (macdMline bars p) 0) i false false h12 h3
    rw [show andL (andL (gtL (macdMline bars p) (macdSline bars p)) (leL (shiftOne (macdMline bars p)) (shiftOne (macdSline bars p)))) (gtScalar (macdMline bars p) 0) = List.zipWith (fun a b => a && b) (andL (gtL (macdMline bars p) (macdSline bars p)) (leL (shiftOne (macdMline bars p)) (shiftOne (macdSline bars p)))) (gtScalar (macdMline bars p) 0) from rfl]
    rw [this, getD_of_getq e12]
  rw [efinal, getD_of_getq e1, getD_of_getq e2, getD_of_getq e3, eShM, eShS, eM, eS]
  by_cases h1i : 1 ≤ i
  · have him : i - 1 < (macdLine (closes bars) p.fastPeriod p.slowPeriod).length := by omega
    have his : i - 1 < (macdSignalLine (closes bars) p.fastPeriod p.slowPeriod p.signalPeriod).length := by omega
    have eM1 : (macdMline bars p).getD (i - 1) FV.nan =
        FV.num ((macdLine (closes bars) p.fastPeriod p.slowPeriod).getD (i - 1) 0) := by
      unfold macdMline; exact getD_map_num _ _ him
    have eS1 : (macdSline bars p).getD (i - 1) FV.nan =
        FV.num ((macdSignalLine (closes bars) p.fastPeriod p.slowPeriod p.signalPeriod).getD (i - 1) 0) := by
      unfold macdSline; exact getD_map_num _ _ his
    rw [if_pos h1i, if_pos h1i, if_pos h1i, eM1, eS1]
    rfl
  · rw [if_neg h1i, if_neg h1i, if_neg h1i]
    rfl

theorem macdResistanceCond_getq (bars : List Bar) (p : MACDParams) (i : ℕ) (hi : i < bars.length) :
    (macdResistanceCond bars p)[i]? = some (
      (decide ((macdLine (closes bars) p.fastPeriod p.slowPeriod).getD i 0 < (macdSignalLine (closes bars) p.fastPeriod p.slowPeriod p.signalPeriod).getD i 0) &&
       (if 1 ≤ i then decide ((macdSignalLine (closes bars) p.fastPeriod p.slowPeriod p.signalPeriod).getD (i-1) 0 ≤ (macdLine (closes bars) p.fastPeriod p.slowPeriod).getD (i-1) 0) else false)) &&
      decide ((macdLine (closes bars) p.fastPeriod p.slowPeriod).getD i 0 < 0)) := by
  have hmq : i < (macdLine (closes bars) p.fastPeriod p.slowPeriod).length := by
    rw [length_macdLine, length_closes]; exact hi
  have hsq : i < (macdSignalLine (closes bars) p.fastPeriod p.slowPeriod p.signalPeriod).length := by
    rw [length_macdSignalLine, length_closes]; exact hi
  have hM : i < (macdMline bars p).length := by rw [length_macdMline]; exact hi
  have hS : i < (macdSline bars p).length := by rw [length_macdSline]; exact hi
  have hshM : i < (shiftOne (macdMline bars p)).length := by
    unfold shiftOne; rw [length_seriesMap]; exact hM
  have hshS : i < (shiftOne (macdSline bars p)).length := by
    unfold shiftOne; rw [length_seriesMap]; exact hS
  have eM : (macdMline bars p).getD i FV.nan =
      FV.num ((macdLine (closes bars) p.fastPeriod p.slowPeriod).getD i 0) := by
    unfold macdMline; exact getD_map_num _ _ hmq
  have eS : (macdSline bars p).getD i FV.nan =
      FV.num ((macdSignalLine (closes bars) p.fastPeriod p.slowPeriod p.signalPeriod).getD i 0) := by
    unfold macdSline; exact getD_map_num _ _ hsq
  have eShM : (shiftOne (macdMline bars p)).getD i FV.nan =
      (if 1 ≤ i then (macdMline bars p).getD (i - 1) FV.nan else FV.nan) :=
    getD_of_getq (shiftOne_getq _ i hM) _
  have eShS : (shiftOne (macdSline bars p)).getD i FV.nan =
      (if 1 ≤ i then (macdSline bars p).getD (i - 1) FV.nan else FV.nan) :=
    getD_of_getq (shiftOne_getq _ i hS) _
  have e1 : (ltL (macdMline bars p) (macdSline bars p))[i]? =
      some (FV.flt ((macdMline bars p).getD i FV.nan) ((macdSline bars p).getD i FV.nan)) :=
    zipWith_getq _ _ _ i FV.nan FV.nan hM hS
  have e2 : (geL (shiftOne (macdMline bars p)) (shiftOne (macdSline bars p)))[i]? =
      some (FV.fle ((shiftOne (macdSline bars p)).getD i FV.nan)
        ((shiftOne (macdMline bars p)).getD i FV.nan)) :=
    zipWith_getq _ _ _ i FV.nan FV.nan hshM hshS
  have e3 : (ltScalar (macdMline bars p) 0)[i]? =
      some (FV.flt ((macdMline bars p).getD i FV.nan) (FV.num 0)) :=
    map_getq _ _ i FV.nan hM
  have h12 : i < (andL (ltL (macdMline bars p) (macdSline bars p)) (geL (shiftOne (macdMline bars p)) (shiftOne (macdSline bars p)))).length := by
    unfold andL ltL geL
    rw [List.length_zipWith, List.length_zipWith, List.length_zipWith]
    omega
  have h3 : i < (ltScalar (macdMline bars p) 0).length := by
    unfold ltScalar
    rw [List.length_map]
    exact hM
  have e12 : (andL (ltL (macdMline bars p) (macdSline bars p)) (geL (shiftOne (macdMline bars p)) (shiftOne (macdSline bars p))))[i]? =
      some (((ltL (macdMline bars p) (macdSline bars p)).getD i false) &&
        ((geL (shiftOne (macdMline bars p)) (shiftOne (macdSline bars p))).getD i false)) := by
    unfold andL
    exact zipWith_getq _ _ _ i false false (by unfold ltL; rw [List.length_zipWith]; omega)
      (by unfold geL; rw [List.length_zipWith]; unfold shiftOne; rw [length_seriesMap, length_seriesMap]; omega)
  have efinal : (macdResistanceCond bars p)[i]? =
      some ((((ltL (macdMline bars p) (macdSline bars p)).getD i false) &&
        ((geL (shiftOne (macdMline bars p)) (shiftOne (macdSline bars p))).getD i false)) &&
        ((ltScalar (macdMline bars p) 0).getD i false)) := by
    unfold macdResistanceCond
    have := zipWith_getq (fun a b => a && b) (andL (ltL (macdMline bars p) (macdSline bars p)) (geL (shiftOne (macdMline bars p)) (shiftOne (macdSline bars p)))) (ltScalar (macdMline bars p) 0) i false false h12 h3
    rw [show andL (andL (ltL (macdMline bars p) (macdSline bars p)) (geL (shiftOne (macdMline bars p)) (shiftOne (macdSline bars p)))) (ltScalar (macdMline bars p) 0) = List.zipWith (fun a b => a && b) (andL (ltL (macdMline bars p) (macdSline bars p)) (geL (shiftOne (macdMline bars p)) (shiftOne (macdSline bars p)))) (ltScalar (macdMline bars p) 0) from rfl]
    rw [this, getD_of_getq e12]
  rw [efinal, getD_of_getq e1, getD_of_getq e2, getD_of_getq e3, eShM, eShS, eM, eS]
  by_cases h1i : 1 ≤ i
  · have him : i - 1 < (macdLine (closes bars) p.fastPeriod p.slowPeriod).length := by omega
    have his : i - 1 < (macdSignalLine (closes bars) p.fastPeriod p.slowPeriod p.signalPeriod).length := by omega
    have eM1 : (macdMline bars p).getD (i - 1) FV.nan =
        FV.num ((macdLine (closes bars) p.fastPeriod p.slowPeriod).getD (i - 1) 0) := by
      unfold macdMline; exact getD_map_num _ _ him
    have eS1 : (macdSline bars p).getD (i - 1) FV.nan =
        FV.num ((macdSignalLine (closes bars) p.fastPeriod p.slowPeriod p.signalPeriod).getD (i - 1) 0) := by
      unfold macdSline; exact getD_map_num _ _ his
    rw [if_pos h1i, if_pos h1i, if_pos h1i, eM1, eS1]
    rfl
  · rw [if_neg h1i, if_neg h1i, if_neg h1i]
    rfl

theorem length_macdSupportCond (bars : List Bar) (p : MACDParams) :
    (macdSupportCond bars p).length = bars.length := by
  unfold macdSupportCond andL gtL leL gtScalar shiftOne
  rw [List.length_zipWith, List.length_zipWith, List.length_zipWith, List.length_zipWith,
    List.length_map, length_seriesMap, length_seriesMap, length_macdMline, length_macdSline]
  omega

theorem length_macdResistanceCond (bars : List Bar) (p : MACDParams) :
    (macdResistanceCond bars p).length = bars.length := by
  unfold macdResistanceCond andL ltL geL ltScalar shiftOne
  rw [List.length_zipWith, List.length_zipWith, List.length_zipWith, List.length_zipWith,
    List.length_map, length_seriesMap, length_seriesMap, length_macdMline, length_macdSline]
  omega

theorem selectRev_entry_support (b1 b2 : Bool) :
    ((if b1 then Rev.support else if b2 then Rev.resistance else Rev.none) = Rev.support) ↔
      b1 = true := by
  cases b1 <;> cases b2 <;> simp

theorem selectRev_entry_resistance (b1 b2 : Bool) :
    ((if b1 then Rev.support else if b2 then Rev.resistance else Rev.none) = Rev.resistance) ↔
      (b1 = false ∧ b2 = true) := by
  cases b1 <;> cases b2 <;> simp

set_option maxHeartbeats 2000000 in
/-- C6 (amended): the MACD oscillator is the RAW fast/slow EMA difference of
close (no ATR normalization); the signal line is its EMA over signal_period;
in train mode, when fast_period*1.5 <= slow_period, a support reversal is
emitted exactly when the raw macd crosses above the signal line while
positive (no extremity cap exists), the resistance case mirrored with
negative macd; when fast_period*1.5 > slow_period no signal is ever
emitted. -/
theorem macd_signal_characterization (bars : List Bar) (p : MACDParams) (i : ℕ)
    (hi : i < bars.length) :
    ((p.fastPeriod : ℚ) * (3/2) > (p.slowPeriod : ℚ) →
      ((macdCalculate bars p Mode.train).reversal)[i]? = some Rev.none) ∧
    (¬ ((p.fastPeriod : ℚ) * (3/2) > (p.slowPeriod : ℚ)) →
      ((((macdCalculate bars p Mode.train).reversal)[i]? = some Rev.support) ↔
        (1 ≤ i ∧
          (macdSignalLine (closes bars) p.fastPeriod p.slowPeriod p.signalPeriod).getD i 0 <
            (macdLine (closes bars) p.fastPeriod p.slowPeriod).getD i 0 ∧
          (macdLine (closes bars) p.fastPeriod p.slowPeriod).getD (i-1) 0 ≤
            (macdSignalLine (closes bars) p.fastPeriod p.slowPeriod p.signalPeriod).getD (i-1) 0 ∧
          0 < (macdLine (closes bars) p.fastPeriod p.slowPeriod).getD i 0)) ∧
      ((((macdCalculate bars p Mode.train).reversal)[i]? = some Rev.resistance) ↔
        (1 ≤ i ∧
          (macdLine (closes bars) p.fastPeriod p.slowPeriod).getD i 0 <
            (macdSignalLine (closes bars) p.fastPeriod p.slowPeriod p.signalPeriod).getD i 0 ∧
          (macdSignalLine (closes bars) p.fastPeriod p.slowPeriod p.signalPeriod).getD (i-1) 0 ≤
            (macdLine (closes bars) p.fastPeriod p.slowPeriod).getD (i-1) 0 ∧
          (macdLine (closes bars) p.fastPeriod p.slowPeriod).getD i 0 < 0))) := by
  constructor
  · intro hg
    have hrev : (macdCalculate bars p Mode.train).reversal = bars.map (fun _ => Rev.none) := by
      simp [macdCalculate, hg]
    rw [hrev, List.getElem?_map, List.getElem?_eq_getElem hi]
    rfl
  · intro hg
    have hrev : (macdCalculate bars p Mode.train).reversal =
        selectRev (macdSupportCond bars p) (macdResistanceCond bars p) := by
      simp [macdCalculate, hg]
    have hscL : i < (macdSupportCond bars p).length := by
      rw [length_macdSupportCond]; exact hi
    have hrcL : i < (macdResistanceCond bars p).length := by
      rw [length_macdResistanceCond]; exact hi
    have hsel : (selectRev (macdSupportCond bars p) (macdResistanceCond bars p))[i]? =
        some (if (macdSupportCond bars p).getD i false then Rev.support
          else if (macdResistanceCond bars p).getD i false then Rev.resistance
          else Rev.none) := by
      unfold selectRev
      exact zipWith_getq _ _ _ i false false hscL hrcL
    have hscv := getD_of_getq (macdSupportCond_getq bars p i hi) false
    have hrcv := getD_of_getq (macdResistanceCond_getq bars p i hi) false
    rw [hrev, hsel, hscv, hrcv]
    constructor
    · rw [Option.some_inj, selectRev_entry_support]
      by_cases h1i : 1 ≤ i
      · simp only [if_pos h1i, Bool.and_eq_true, decide_eq_true_iff]
        tauto
      · simp only [if_neg h1i, Bool.and_false, Bool.false_and, Bool.and_eq_true]
        simp
        tauto
    · rw [Option.some_inj, selectRev_entry_resistance]
      by_cases h1i : 1 ≤ i
      · simp only [if_pos h1i, Bool.and_eq_true, decide_eq_true_iff, Bool.and_eq_false_iff]
        constructor
        · rintro ⟨_, ⟨hlt, hle⟩, hneg⟩
          exact ⟨h1i, hlt, hle, hneg⟩
        · rintro ⟨_, hlt, hle, hneg⟩
          refine ⟨?_, ⟨hlt, hle⟩, hneg⟩
          left
          left
          exact decide_eq_false (lt_asymm hlt)
      · simp only [if_neg h1i, Bool.and_false, Bool.false_and, Bool.and_eq_true]
        simp
        omega

/-- C6 witness: the characterization instantiated on two concrete bars with
MACD(6,12,6) at index 1. -/
theorem macd_signal_characterization_witness :
    (((macdCalculate [{ op := 1, high := 3, low := 1, close := 1, volume := 0 }, { op := 2, high := 3, low := 1, close := 2, volume := 0 }] { fastPeriod := 6, slowPeriod := 12, signalPeriod := 6 } Mode.train).reversal)[1]? = some Rev.support) ↔
      (1 ≤ 1 ∧
        (macdSignalLine (closes [{ op := 1, high := 3, low := 1, close := 1, volume := 0 }, { op := 2, high := 3, low := 1, close := 2, volume := 0 }]) 6 12 6).getD 1 0 <
          (macdLine (closes [{ op := 1, high := 3, low := 1, close := 1, volume := 0 }, { op := 2, high := 3, low := 1, close := 2, volume := 0 }]) 6 12).getD 1 0 ∧
        (macdLine (closes [{ op := 1, high := 3, low := 1, close := 1, volume := 0 }, { op := 2, high := 3, low := 1, close := 2, volume := 0 }]) 6 12).getD (1-1) 0 ≤
          (macdSignalLine (closes [{ op := 1, high := 3, low := 1, close := 1, volume := 0 }, { op := 2, high := 3, low := 1, close := 2, volume := 0 }]) 6 12 6).getD (1-1) 0 ∧
        0 < (macdLine (closes [{ op := 1, high := 3, low := 1, close := 1, volume := 0 }, { op := 2, high := 3, low := 1, close := 2, volume := 0 }]) 6 12).getD 1 0) :=
  ((macd_signal_characterization [{ op := 1, high := 3, low := 1, close := 1, volume := 0 }, { op := 2, high := 3, low := 1, close := 2, volume := 0 }] { fastPeriod := 6, slowPeriod := 12, signalPeriod := 6 } 1 (by decide)).2 (by norm_num)).1

/-! Forward window and trailing-bar behaviour of the evaluator (C7). -/

theorem foldl_max_spec (t : List ℚ) : ∀ a : ℚ,
    (t.foldl max a = a ∨ t.foldl max a ∈ t) ∧ a ≤ t.foldl max a ∧
      ∀ x ∈ t, x ≤ t.foldl max a := by
  induction t with
  | nil =>
      intro a
      exact ⟨Or.inl rfl, le_refl a, by simp⟩
  | cons b t ih =>
      intro a
      obtain ⟨hmem, hle, hall⟩ := ih (max a b)
      refine ⟨?_, ?_, ?_⟩
      · rcases hmem with h | h
        · rcases max_choice a b with hab | hab
          · exact Or.inl (by rw [List.foldl_cons, h, hab])
          · refine Or.inr ?_
            rw [List.foldl_cons, h, hab]
            exact List.mem_cons_self b t
        · exact Or.inr (List.mem_cons_of_mem b h)
      · calc a ≤ max a b := le_max_left a b
          _ ≤ (b :: t).foldl max a := by rw [List.foldl_cons]; exact hle
      · intro x hx
        rcases List.mem_cons.mp hx with rfl | hx2
        · calc x ≤ max a x := le_max_right a x
            _ ≤ (x :: t).foldl max a := by rw [List.foldl_cons]; exact hle
        · rw [List.foldl_cons]
          exact hall x hx2

theorem foldl_min_spec (t : List ℚ) : ∀ a : ℚ,
    (t.foldl min a = a ∨ t.foldl min a ∈ t) ∧ t.foldl min a ≤ a ∧
      ∀ x ∈ t, t.foldl min a ≤ x := by
  induction t with
  | nil =>
      intro a
      exact ⟨Or.inl rfl, le_refl a, by simp⟩
  | cons b t ih =>
      intro a
      obtain ⟨hmem, hle, hall⟩ := ih (min a b)
      refine ⟨?_, ?_, ?_⟩
      · rcases hmem with h | h
        · rcases min_choice a b with hab | hab
          · exact Or.inl (by rw [List.foldl_cons, h, hab])
          · refine Or.inr ?_
            rw [List.foldl_cons, h, hab]
            exact List.mem_cons_self b t
        · exact Or.inr (List.mem_cons_of_mem b h)
      · calc (b :: t).foldl min a ≤ min a b := by rw [List.foldl_cons]; exact hle
          _ ≤ a := min_le_left a b
      · intro x hx
        rcases List.mem_cons.mp hx with rfl | hx2
        · calc (x :: t).foldl min a ≤ min a x := by rw [List.foldl_cons]; exact hle
            _ ≤ x := min_le_right a x
        · rw [List.foldl_cons]
          exact hall x hx2

theorem get_future_range_trailing (xs : List ℚ) (la : ℕ) (isHigh : Bool) (i : ℕ)
    (hi : i < xs.length) (h : xs.length ≤ i + la) :
    (get_future_range xs la isHigh)[i]? = some Option.none := by
  unfold get_future_range
  rw [List.getElem?_map, List.getElem?_range hi]
  simp [show ¬ (i + la < xs.length) from by omega]

theorem get_future_range_max_spec (xs : List ℚ) (la i : ℕ)
    (hla : 1 ≤ la) (h : i + la < xs.length) :
    ∃ m, (get_future_range xs la true)[i]? = some (some m) ∧
      m ∈ (xs.drop (i+1)).take la ∧ ∀ x ∈ (xs.drop (i+1)).take la, x ≤ m := by
  have hi : i < xs.length := by omega
  have hlen : ((xs.drop (i+1)).take la).length = la := by
    rw [List.length_take, List.length_drop]
    omega
  unfold get_future_range
  rw [List.getElem?_map, List.getElem?_range hi]
  cases hs : (xs.drop (i+1)).take la with
  | nil =>
      rw [hs] at hlen
      simp at hlen
      omega
  | cons a t =>
      obtain ⟨hmem, hle, hall⟩ := foldl_max_spec t a
      refine ⟨t.foldl max a, ?_, ?_, ?_⟩
      · simp [h, hs]
      · rcases hmem with h2 | h2
        · rw [h2]; exact List.mem_cons_self a t
        · exact List.mem_cons_of_mem a h2
      · intro x hx
        rcases List.mem_cons.mp hx with rfl | hx2
        · exact hle
        · exact hall x hx2

theorem get_future_range_min_spec (xs : List ℚ) (la i : ℕ)
    (hla : 1 ≤ la) (h : i + la < xs.length) :
    ∃ m, (get_future_range xs la false)[i]? = some (some m) ∧
      m ∈ (xs.drop (i+1)).take la ∧ ∀ x ∈ (xs.drop (i+1)).take la, m ≤ x := by
  have hi : i < xs.length := by omega
  have hlen : ((xs.drop (i+1)).take la).length = la := by
    rw [List.length_take, List.length_drop]
    omega
  unfold get_future_range
  rw [List.getElem?_map, List.getElem?_range hi]
  cases hs : (xs.drop (i+1)).take la with
  | nil =>
      rw [hs] at hlen
      simp at hlen
      omega
  | cons a t =>
      obtain ⟨hmem, hle, hall⟩ := foldl_min_spec t a
      refine ⟨t.foldl min a, ?_, ?_, ?_⟩
      · simp [h, hs]
      · rcases hmem with h2 | h2
        · rw [h2]; exact List.mem_cons_self a t
        · exact List.mem_cons_of_mem a h2
      · intro x hx
        rcases List.mem_cons.mp hx with rfl | hx2
        · exact hle
        · exact hall x hx2

theorem length_zipWith5 (g : α → β → γ → δ → ε → ζ) :
    ∀ (as : List α) (bs : List β) (cs : List γ) (ds : List δ) (es : List ε),
      (zipWith5 g as bs cs ds es).length =
        min as.length (min bs.length (min cs.length (min ds.length es.length))) := by
  intro as
  induction as with
  | nil =>
      intro bs cs ds es
      simp [zipWith5]
  | cons a as ih =>
      intro bs cs ds es
      cases bs with
      | nil => simp [zipWith5]
      | cons b bs =>
          cases cs with
          | nil => simp [zipWith5]
          | cons c cs =>
              cases ds with
              | nil => simp [zipWith5]
              | cons d ds =>
                  cases es with
                  | nil => simp [zipWith5]
                  | cons e es =>
                      simp only [zipWith5, List.length_cons, ih bs cs ds es]
                      omega

theorem zipWith5_getq (g : α → β → γ → δ → ε → ζ) :
    ∀ (as : List α) (bs : List β) (cs : List γ) (ds : List δ) (es : List ε) (i : ℕ)
      (da : α) (db : β) (dc : γ) (dd : δ) (de : ε),
      i < as.length → i < bs.length → i < cs.length → i < ds.length → i < es.length →
      (zipWith5 g as bs cs ds es)[i]? =
        some (g (as.getD i da) (bs.getD i db) (cs.getD i dc) (ds.getD i dd) (es.getD i de)) := by
  intro as
  induction as with
  | nil =>
      intro bs cs ds es i da db dc dd de h1
      simp at h1
  | cons a as ih =>
      intro bs cs ds es i da db dc dd de h1 h2 h3 h4 h5
      cases bs with
      | nil => simp at h2
      | cons b bs =>
          cases cs with
          | nil => simp at h3
          | cons c cs =>
              cases ds with
              | nil => simp at h4
              | cons d ds =>
                  cases es with
                  | nil => simp at h5
                  | cons e es =>
                      cases i with
                      | zero => simp [zipWith5, List.getD]
                      | succ j =>
                          have hstep := ih bs cs ds es j da db dc dd de
                            (by simpa using h1) (by simpa using h2) (by simpa using h3)
                            (by simpa using h4) (by simpa using h5)
                          simpa [zipWith5] using hstep

theorem length_trueRangeL (bars : List Bar) : (trueRangeL bars).length = bars.length := by
  unfold trueRangeL
  exact length_seriesMap _ _

theorem length_ATR (bars : List Bar) (w : ℕ) : (ATR bars w).length = bars.length := by
  unfold ATR rollingMeanOne
  rw [length_seriesMap, length_trueRangeL]

theorem length_get_future_range (xs : List ℚ) (la : ℕ) (isHigh : Bool) :
    (get_future_range xs la isHigh).length = xs.length := by
  unfold get_future_range
  simp

theorem length_rollingMinQ (w : ℕ) (xs : List ℚ) : (rollingMinQ w xs).length = xs.length := by
  unfold rollingMinQ
  exact length_seriesMap _ _

theorem length_rollingMaxQ (w : ℕ) (xs : List ℚ) : (rollingMaxQ w xs).length = xs.length := by
  unfold rollingMaxQ
  exact length_seriesMap _ _

theorem length_support_win_list (f : SignalFrame) (la : ℕ) (mult : ℚ) (atrp : ℕ)
    (chl : Bool) (hrev : f.reversal.length = f.bars.length) :
    (support_win_list f la mult atrp chl).length = f.bars.length := by
  unfold support_win_list
  simp only [length_zipWith5, List.length_zipWith, length_closes, length_ATR,
    length_get_future_range, length_rollingMinQ, List.length_map, hrev]
  omega

theorem length_resistance_win_list (f : SignalFrame) (la : ℕ) (mult : ℚ) (atrp : ℕ)
    (chl : Bool) (hrev : f.reversal.length = f.bars.length) :
    (resistance_win_list f la mult atrp chl).length = f.bars.length := by
  unfold resistance_win_list
  simp only [length_zipWith5, List.length_zipWith, length_closes, length_ATR,
    length_get_future_range, length_rollingMaxQ, List.length_map, hrev]
  omega

theorem zip3M_filter_fst_length (p : Rev → Bool) :
    ∀ (rev : List Rev) (st wn : List Bool), st.length = rev.length →
      wn.length = rev.length →
      ((zip3M rev st wn).filter (fun x => p x.1)).length = rev.countP p := by
  intro rev
  induction rev with
  | nil =>
      intro st wn h1 h2
      cases st <;> cases wn <;> simp [zip3M, List.countP_nil]
  | cons r rs ih =>
      intro st wn h1 h2
      cases st with
      | nil => simp at h1
      | cons s ss =>
          cases wn with
          | nil => simp at h2
          | cons w ws =>
              have hlen1 : ss.length = rs.length := by simpa using h1
              have hlen2 : ws.length = rs.length := by simpa using h2
              simp only [zip3M, List.countP_cons, List.filter_cons]
              cases hp : p r <;> simp [hp, ih ss ws hlen1 hlen2]

theorem trailing_support_win_false (f : SignalFrame) (la : ℕ) (mult : ℚ) (atrp : ℕ)
    (chl : Bool) (i : ℕ) (hrev : f.reversal.length = f.bars.length)
    (hi : i < f.bars.length) (htrail : f.bars.length ≤ i + la) :
    (support_win_list f la mult atrp chl)[i]? = some false := by
  unfold support_win_list
  have h1 : i < f.reversal.length := by omega
  have h2 : i < (List.zipWith (fun c a => c + a * mult) (closes f.bars) (ATR f.bars atrp)).length := by
    rw [List.length_zipWith, length_closes, length_ATR]
    omega
  have h3 : i < (get_future_range (f.bars.map Bar.high) la true).length := by
    rw [length_get_future_range, List.length_map]
    omega
  have h4 : i < (get_future_range (f.bars.map Bar.low) la false).length := by
    rw [length_get_future_range, List.length_map]
    omega
  have h5 : i < (rollingMinQ 3 (f.bars.map Bar.low)).length := by
    rw [length_rollingMinQ, List.length_map]
    omega
  rw [zipWith5_getq _ _ _ _ _ _ i Rev.none 0 Option.none Option.none 0 h1 h2 h3 h4 h5]
  have hfh : (get_future_range (f.bars.map Bar.high) la true).getD i Option.none = Option.none :=
    getD_of_getq (get_future_range_trailing _ la true i (by rw [List.length_map]; omega)
      (by rw [List.length_map]; omega)) _
  rw [hfh]
  simp [geO]

theorem trailing_resistance_win_false (f : SignalFrame) (la : ℕ) (mult : ℚ) (atrp : ℕ)
    (chl : Bool) (i : ℕ) (hrev : f.reversal.length = f.bars.length)
    (hi : i < f.bars.length) (htrail : f.bars.length ≤ i + la) :
    (resistance_win_list f la mult atrp chl)[i]? = some false := by
  unfold resistance_win_list
  have h1 : i < f.reversal.length := by omega
  have h2 : i < (List.zipWith (fun c a => c - a * mult) (closes f.bars) (ATR f.bars atrp)).length := by
    rw [List.length_zipWith, length_closes, length_ATR]
    omega
  have h3 : i < (get_future_range (f.bars.map Bar.low) la false).length := by
    rw [length_get_future_range, List.length_map]
    omega
  have h4 : i < (get_future_range (f.bars.map Bar.high) la true).length := by
    rw [length_get_future_range, List.length_map]
    omega
  have h5 : i < (rollingMaxQ 3 (f.bars.map Bar.high)).length := by
    rw [length_rollingMaxQ, List.length_map]
    omega
  rw [zipWith5_getq _ _ _ _ _ _ i Rev.none 0 Option.none Option.none 0 h1 h2 h3 h4 h5]
  have hfl : (get_future_range (f.bars.map Bar.low) la false).getD i Option.none = Option.none :=
    getD_of_getq (get_future_range_trailing _ la false i (by rw [List.length_map]; omega)
      (by rw [List.length_map]; omega)) _
  rw [hfl]
  simp [leO]

/-- C7 (amended): forward extremes are the max high / min low over the next
lookahead bars and are nan on the trailing lookahead bars; however, signals on
the trailing bars are NOT excluded from the evaluation aggregates: the signal
counts (the win-rate denominators) count every signal wherever it occurs, and
a trailing signal merely scores as a loss (win flag 0). -/
theorem forward_window_and_trailing_signals :
    (∀ (xs : List ℚ) (la i : ℕ), 1 ≤ la → i + la < xs.length →
      ∃ m, (get_future_range xs la true)[i]? = some (some m) ∧
        m ∈ (xs.drop (i+1)).take la ∧ ∀ x ∈ (xs.drop (i+1)).take la, x ≤ m) ∧
    (∀ (xs : List ℚ) (la i : ℕ), 1 ≤ la → i + la < xs.length →
      ∃ m, (get_future_range xs la false)[i]? = some (some m) ∧
        m ∈ (xs.drop (i+1)).take la ∧ ∀ x ∈ (xs.drop (i+1)).take la, m ≤ x) ∧
    (∀ (xs : List ℚ) (la : ℕ) (isHigh : Bool) (i : ℕ), i < xs.length → xs.length ≤ i + la →
      (get_future_range xs la isHigh)[i]? = some Option.none) ∧
    (∀ (f : SignalFrame) (la : ℕ) (mult : ℚ) (atrp : ℕ) (chl : Bool),
      f.is_strong.length = f.reversal.length → f.reversal.length = f.bars.length →
      (calculate_win_rate f la mult atrp chl).support_signals_count =
        f.reversal.countP (fun r => decide (r = Rev.support)) ∧
      (calculate_win_rate f la mult atrp chl).resistance_signals_count =
        f.reversal.countP (fun r => decide (r = Rev.resistance))) ∧
    (∀ (f : SignalFrame) (la : ℕ) (mult : ℚ) (atrp : ℕ) (chl : Bool) (i : ℕ),
      f.reversal.length = f.bars.length → i < f.bars.length → f.bars.length ≤ i + la →
      (support_win_list f la mult atrp chl)[i]? = some false ∧
      (resistance_win_list f la mult atrp chl)[i]? = some false) := by
  refine ⟨get_future_range_max_spec, get_future_range_min_spec,
    get_future_range_trailing, ?_, ?_⟩
  · intro f la mult atrp chl hs hrev
    constructor
    · simp only [calculate_win_rate]
      exact zip3M_filter_fst_length (fun r => decide (r = Rev.support)) f.reversal f.is_strong _ hs
        ((length_support_win_list f la mult atrp chl hrev).trans hrev.symm)
    · simp only [calculate_win_rate]
      exact zip3M_filter_fst_length (fun r => decide (r = Rev.resistance)) f.reversal f.is_strong _ hs
        ((length_resistance_win_list f la mult atrp chl hrev).trans hrev.symm)
  · intro f la mult atrp chl i hrev hi htrail
    exact ⟨trailing_support_win_false f la mult atrp chl i hrev hi htrail,
      trailing_resistance_win_false f la mult atrp chl i hrev hi htrail⟩

/-- C7 counterexample: a frame whose only support signal sits in the trailing
lookahead window still contributes to support_signals_count (the claim says
such bars contribute to neither counts nor denominators). -/
theorem trailing_signal_counted_counterexample :
    ({ bars := [{ op := 1, high := 2, low := 1, close := 1, volume := 0 }, { op := 1, high := 3, low := 1, close := 2, volume := 0 }], reversal := [Rev.none, Rev.support], is_strong := [false, true] } : SignalFrame).bars.length ≤ 1 + 5 ∧
    (calculate_win_rate { bars := [{ op := 1, high := 2, low := 1, close := 1, volume := 0 }, { op := 1, high := 3, low := 1, close := 2, volume := 0 }], reversal := [Rev.none, Rev.support], is_strong := [false, true] } 5 1 1 true).support_signals_count ≠ 0 := by
  constructor
  · decide
  · with_unfolding_all decide

/-- C7 witness: the conjuncts instantiated at concrete inputs. -/
theorem forward_window_and_trailing_signals_witness :
    (∃ m, (get_future_range [(1:ℚ), 5, 3] 2 true)[0]? = some (some m) ∧
      m ∈ ([(1:ℚ), 5, 3].drop 1).take 2 ∧ ∀ x ∈ ([(1:ℚ), 5, 3].drop 1).take 2, x ≤ m) ∧
    (get_future_range [(1:ℚ), 5, 3] 2 false)[1]? = some Option.none ∧
    (calculate_win_rate { bars := [{ op := 1, high := 2, low := 1, close := 1, volume := 0 }, { op := 1, high := 3, low := 1, close := 2, volume := 0 }], reversal := [Rev.none, Rev.support], is_strong := [false, true] } 5 1 1 true).support_signals_count =
      ({ bars := [{ op := 1, high := 2, low := 1, close := 1, volume := 0 }, { op := 1, high := 3, low := 1, close := 2, volume := 0 }], reversal := [Rev.none, Rev.support], is_strong := [false, true] } : SignalFrame).reversal.countP (fun r => decide (r = Rev.support)) ∧
    (support_win_list { bars := [{ op := 1, high := 2, low := 1, close := 1, volume := 0 }, { op := 1, high := 3, low := 1, close := 2, volume := 0 }], reversal := [Rev.none, Rev.support], is_strong := [false, true] } 5 1 1 true)[1]? = some false :=
  ⟨forward_window_and_trailing_signals.1 [(1:ℚ), 5, 3] 2 0 (by decide) (by decide),
   forward_window_and_trailing_signals.2.2.1 [(1:ℚ), 5, 3] 2 false 1 (by decide) (by decide),
   (forward_window_and_trailing_signals.2.2.2.1 { bars := [{ op := 1, high := 2, low := 1, close := 1, volume := 0 }, { op := 1, high := 3, low := 1, close := 2, volume := 0 }], reversal := [Rev.none, Rev.support], is_strong := [false, true] } 5 1 1 true (by decide) (by decide)).1,
   (forward_window_and_trailing_signals.2.2.2.2 { bars := [{ op := 1, high := 2, low := 1, close := 1, volume := 0 }, { op := 1, high := 3, low := 1, close := 2, volume := 0 }], reversal := [Rev.none, Rev.support], is_strong := [false, true] } 5 1 1 true 1 (by decide) (by decide) (by decide)).1⟩

/-! Constant (zero-volatility) series lemmas (C9). -/

theorem seriesMap_replicate (f : List α → β) (x : α) (n : ℕ) (y : β)
    (h : ∀ k, 1 ≤ k → k ≤ n → f (List.replicate k x) = y) :
    seriesMap f (List.replicate n x) = List.replicate n y := by
  apply List.ext_getElem?
  intro i
  by_cases hi : i < n
  · rw [seriesMap_getq _ _ _ (by simpa using hi), List.getElem?_replicate, if_pos hi,
      List.take_replicate]
    rw [min_eq_left (by omega : i + 1 ≤ n)]
    rw [h (i + 1) (by omega) (by omega)]
  · rw [seriesMap_getq_oob _ _ _ (by simpa using Nat.not_lt.mp hi),
      List.getElem?_replicate, if_neg hi]

theorem seriesMap_replicate_getq (f : List α → β) (x : α) (n i : ℕ) (hi : i < n) :
    (seriesMap f (List.replicate n x))[i]? = some (f (List.replicate (i + 1) x)) := by
  rw [seriesMap_getq _ _ _ (by simpa using hi), List.take_replicate,
    min_eq_left (by omega : i + 1 ≤ n)]

theorem foldl_add_replicate_num (q : ℚ) :
    ∀ (m : ℕ) (a : ℚ), (List.replicate m (FV.num q)).foldl FV.add (FV.num a) = FV.num (a + m * q) := by
  intro m
  induction m with
  | zero =>
      intro a
      simp
  | succ k ih =>
      intro a
      rw [List.replicate_succ, List.foldl_cons]
      have hstep : FV.add (FV.num a) (FV.num q) = FV.num (a + q) := rfl
      rw [hstep, ih (a + q)]
      congr 1
      push_cast
      ring

theorem aggMean_replicate_num (q : ℚ) (m : ℕ) :
    aggMean (List.replicate m (FV.num q)) = if m = 0 then FV.nan else FV.num q := by
  unfold aggMean fvSum
  rw [foldl_add_replicate_num q m 0, List.length_replicate]
  rcases Nat.eq_zero_or_pos m with hm | hm
  · subst hm
    simp [FV.div]
  · rw [if_neg (by omega)]
    have hm2 : ((m : ℚ)) ≠ 0 := by positivity
    unfold FV.div
    dsimp only
    rw [if_neg hm2]
    congr 1
    field_simp

theorem foldl_fmin_replicate_num (q : ℚ) :
    ∀ m : ℕ, (List.replicate m (FV.num q)).foldl FV.fmin (FV.num q) = FV.num q := by
  intro m
  induction m with
  | zero => rfl
  | succ k ih =>
      rw [List.replicate_succ, List.foldl_cons]
      have hstep : FV.fmin (FV.num q) (FV.num q) = FV.num q := by
        unfold FV.fmin FV.flt
        simp
      rw [hstep, ih]

theorem foldl_fmax_replicate_num (q : ℚ) :
    ∀ m : ℕ, (List.replicate m (FV.num q)).foldl FV.fmax (FV.num q) = FV.num q := by
  intro m
  induction m with
  | zero => rfl
  | succ k ih =>
      rw [List.replicate_succ, List.foldl_cons]
      have hstep : FV.fmax (FV.num q) (FV.num q) = FV.num q := by
        unfold FV.fmax FV.flt
        simp
      rw [hstep, ih]

theorem aggMin_replicate_num (q : ℚ) (m : ℕ) (h : 1 ≤ m) :
    aggMin (List.replicate m (FV.num q)) = FV.num q := by
  obtain ⟨k, rfl⟩ : ∃ k, m = k + 1 := ⟨m - 1, by omega⟩
  rw [List.replicate_succ]
  unfold aggMin
  exact foldl_fmin_replicate_num q k

theorem aggMax_replicate_num (q : ℚ) (m : ℕ) (h : 1 ≤ m) :
    aggMax (List.replicate m (FV.num q)) = FV.num q := by
  obtain ⟨k, rfl⟩ : ∃ k, m = k + 1 := ⟨m - 1, by omega⟩
  rw [List.replicate_succ]
  unfold aggMax
  exact foldl_fmax_replicate_num q k

theorem lastWin_replicate (w k : ℕ) (x : α) :
    lastWin w (List.replicate k x) = List.replicate (min w k) x := by
  unfold lastWin
  rw [List.length_replicate, List.drop_replicate]
  congr 1
  omega

theorem filter_nonnan_replicate_num (q : ℚ) (m : ℕ) :
    (List.replicate m (FV.num q)).filter (fun v => !v.isNan) = List.replicate m (FV.num q) := by
  apply List.filter_eq_self.mpr
  intro a ha
  rw [List.eq_of_mem_replicate ha]
  rfl

theorem filter_nonnan_replicate_nan (m : ℕ) :
    (List.replicate m FV.nan).filter (fun v => !v.isNan) = [] := by
  apply List.filter_eq_nil_iff.mpr
  intro a ha
  rw [List.eq_of_mem_replicate ha]
  simp [FV.isNan]

theorem rollingApply_replicate_num_getq (w minp : ℕ) (agg : List FV → FV) (n : ℕ) (q : ℚ)
    (i : ℕ) (hi : i < n)
    (hagg : ∀ m, 1 ≤ m → agg (List.replicate m (FV.num q)) = FV.num q)
    (hagg0 : agg [] = FV.nan) :
    (rollingApply w minp agg (List.replicate n (FV.num q)))[i]? =
      some (if min w (i + 1) < minp ∨ min w (i + 1) = 0 then FV.nan else FV.num q) := by
  unfold rollingApply
  rw [seriesMap_replicate_getq _ _ _ _ hi]
  congr 1
  simp only [lastWin_replicate, filter_nonnan_replicate_num, List.length_replicate]
  by_cases h1 : min w (i + 1) < minp
  · rw [if_pos h1, if_pos (Or.inl h1)]
  · rw [if_neg h1]
    by_cases h2 : min w (i + 1) = 0
    · rw [h2, List.replicate_zero, hagg0]
      simp
    · rw [hagg _ (by omega), if_neg (by tauto)]

theorem rollingApply_replicate_nan (w minp : ℕ) (agg : List FV → FV) (n : ℕ)
    (hagg0 : agg [] = FV.nan) :
    rollingApply w minp agg (List.replicate n FV.nan) = List.replicate n FV.nan := by
  unfold rollingApply
  apply seriesMap_replicate
  intro k h1 h2
  rw [lastWin_replicate, filter_nonnan_replicate_nan]
  by_cases h3 : (0 : ℕ) < minp
  · simp [h3]
  · have hminp : minp = 0 := by omega
    simp [hminp, hagg0]

theorem constBars_eq (n : ℕ) (c : ℚ) :
    constBars n c = List.replicate n { op := c, high := c, low := c, close := c, volume := 0 } := rfl

theorem closes_const (n : ℕ) (c : ℚ) : closes (constBars n c) = List.replicate n c := by
  unfold closes constBars
  rw [List.map_replicate]

theorem highF_const (n : ℕ) (c : ℚ) : highF (constBars n c) = List.replicate n (FV.num c) := by
  unfold highF constBars
  rw [List.map_replicate]

theorem lowF_const (n : ℕ) (c : ℚ) : lowF (constBars n c) = List.replicate n (FV.num c) := by
  unfold lowF constBars
  rw [List.map_replicate]

theorem closeF_const (n : ℕ) (c : ℚ) : closeF (constBars n c) = List.replicate n (FV.num c) := by
  unfold closeF constBars
  rw [List.map_replicate]

theorem zipWith_replicate_both (g : α → β → γ) (x : α) (y : β) :
    ∀ (n m : ℕ), List.zipWith g (List.replicate n x) (List.replicate m y) =
      List.replicate (min n m) (g x y) := by
  intro n
  induction n with
  | zero =>
      intro m
      simp
  | succ k ih =>
      intro m
      cases m with
      | zero => simp
      | succ j =>
          rw [List.replicate_succ, List.replicate_succ, List.zipWith_cons_cons, ih j]
          rw [show min (k + 1) (j + 1) = min k j + 1 from by omega, List.replicate_succ]

theorem zipWith_left_const (g : α → β → γ) (x : α) (z : γ) (hg : ∀ b, g x b = z) :
    ∀ (n : ℕ) (y : List β),
      List.zipWith g (List.replicate n x) y = List.replicate (min n y.length) z := by
  intro n
  induction n with
  | zero =>
      intro y
      simp
  | succ k ih =>
      intro y
      cases y with
      | nil => simp
      | cons b bs =>
          rw [List.replicate_succ, List.zipWith_cons_cons, hg b, ih bs]
          rw [List.length_cons, show min (k + 1) (bs.length + 1) = min k bs.length + 1 from by omega,
            List.replicate_succ]

theorem getD_replicate (x : α) (n i : ℕ) (d : α) (h : i < n) :
    (List.replicate n x).getD i d = x :=
  getD_of_getq (by rw [List.getElem?_replicate, if_pos h]) d

theorem shiftOne_replicate_nan (n : ℕ) : shiftOne (List.replicate n FV.nan) = List.replicate n FV.nan := by
  unfold shiftOne
  apply seriesMap_replicate
  intro k h1 h2
  unfold prevOf
  by_cases h3 : 2 ≤ (List.replicate k FV.nan).length
  · rw [if_pos h3, List.length_replicate]
    exact getD_replicate _ _ _ _ (by simp at h3; omega)
  · rw [if_neg h3]

theorem kdKline_const (n : ℕ) (c : ℚ) (p : KDParams) :
    kdKline (constBars n c) p = List.replicate n FV.nan := by
  unfold kdKline stochasticK
  rw [highF_const, lowF_const, closeF_const]
  apply List.ext_getElem?
  intro i
  by_cases hi : i < n
  · have hlm : (rollingApply p.kPeriod p.kPeriod aggMin (List.replicate n (FV.num c)))[i]? =
        some (if min p.kPeriod (i + 1) < p.kPeriod ∨ min p.kPeriod (i + 1) = 0 then FV.nan else FV.num c) :=
      rollingApply_replicate_num_getq _ _ _ _ _ _ hi (fun m hm => aggMin_replicate_num c m hm) rfl
    have hhm : (rollingApply p.kPeriod p.kPeriod aggMax (List.replicate n (FV.num c)))[i]? =
        some (if min p.kPeriod (i + 1) < p.kPeriod ∨ min p.kPeriod (i + 1) = 0 then FV.nan else FV.num c) :=
      rollingApply_replicate_num_getq _ _ _ _ _ _ hi (fun m hm => aggMax_replicate_num c m hm) rfl
    have hlen1 : i < (List.replicate n (FV.num c) : List FV).length := by simpa using hi
    have hlen2 : i < ((rollingApply p.kPeriod p.kPeriod aggMin (List.replicate n (FV.num c))).zip
        (rollingApply p.kPeriod p.kPeriod aggMax (List.replicate n (FV.num c)))).length := by
      rw [List.length_zip]
      unfold rollingApply
      rw [length_seriesMap, length_seriesMap]
      simpa using hi
    rw [zipWith_getq _ _ _ i (FV.num c) (FV.nan, FV.nan) hlen1 hlen2]
    have hzip : ((rollingApply p.kPeriod p.kPeriod aggMin (List.replicate n (FV.num c))).zip
        (rollingApply p.kPeriod p.kPeriod aggMax (List.replicate n (FV.num c))))[i]? =
        some ((if min p.kPeriod (i + 1) < p.kPeriod ∨ min p.kPeriod (i + 1) = 0 then FV.nan else FV.num c),
          (if min p.kPeriod (i + 1) < p.kPeriod ∨ min p.kPeriod (i + 1) = 0 then FV.nan else FV.num c)) := by
      show (List.zipWith Prod.mk (rollingApply p.kPeriod p.kPeriod aggMin (List.replicate n (FV.num c))) (rollingApply p.kPeriod p.kPeriod aggMax (List.replicate n (FV.num c))))[i]? = _
      rw [List.getElem?_zipWith, hlm, hhm]
    rw [getD_of_getq hzip, getD_replicate _ _ _ _ hi, List.getElem?_replicate, if_pos hi]
    by_cases hcond : min p.kPeriod (i + 1) < p.kPeriod ∨ min p.kPeriod (i + 1) = 0
    · rw [if_pos hcond]
      rfl
    · rw [if_neg hcond]
      have hzero : c + -c = 0 := by ring
      show some (FV.div (FV.mul (FV.num 100) (FV.add (FV.num c) (FV.neg (FV.num c))))
        (FV.add (FV.num c) (FV.neg (FV.num c)))) = some FV.nan
      have hsub : FV.add (FV.num c) (FV.neg (FV.num c)) = FV.num 0 := by
        show FV.num (c + -c) = FV.num 0
        rw [hzero]
      rw [hsub]
      have hmul : FV.mul (FV.num 100) (FV.num 0) = FV.num 0 := by
        show FV.num (100 * 0) = FV.num 0
        norm_num
      rw [hmul]
      show some (if (0:ℚ) = 0 then (if (0:ℚ) = 0 then FV.nan else if (0:ℚ) < 0 then FV.pinf else FV.ninf) else FV.num (0/0)) = some FV.nan
      norm_num
  · rw [List.getElem?_eq_none, List.getElem?_eq_none]
    · rw [List.length_replicate]
      omega
    · rw [List.length_zipWith, List.length_replicate, List.length_zip]
      unfold rollingApply
      rw [length_seriesMap, length_seriesMap, List.length_replicate]
      omega

theorem kdDline_const (n : ℕ) (c : ℚ) (p : KDParams) :
    kdDline (constBars n c) p = List.replicate n FV.nan := by
  unfold kdDline stochasticD
  rw [kdKline_const]
  exact rollingApply_replicate_nan _ _ _ _ (by simp [aggMean, fvSum, FV.div])

theorem length_kdFutureConfirmation (bars : List Bar) (b : Bool) :
    (kdFutureConfirmation bars b).length = bars.length := by
  unfold kdFutureConfirmation
  simp

theorem kd_const_reversal (n : ℕ) (c : ℚ) (p : KDParams) (m : Mode) :
    (kdCalculate (constBars n c) p m).reversal = List.replicate n Rev.none := by
  have hsc : kdSupportCond (constBars n c) p = List.replicate n false := by
    unfold kdSupportCond
    rw [kdKline_const, kdDline_const]
    unfold andL gtL leL ltScalar
    rw [shiftOne_replicate_nan]
    rw [zipWith_replicate_both, zipWith_replicate_both, List.map_replicate]
    rw [show FV.flt FV.nan FV.nan = false from rfl]
    rw [show FV.fle FV.nan FV.nan = false from rfl]
    rw [show FV.flt FV.nan (FV.num p.oversold) = false from rfl]
    rw [zipWith_replicate_both]
    simp
  have hrc : kdResistanceCond (constBars n c) p = List.replicate n false := by
    unfold kdResistanceCond
    rw [kdKline_const, kdDline_const]
    unfold andL ltL geL gtScalar
    rw [shiftOne_replicate_nan]
    rw [zipWith_replicate_both, zipWith_replicate_both, List.map_replicate]
    rw [show FV.flt FV.nan FV.nan = false from rfl]
    rw [show FV.fle FV.nan FV.nan = false from rfl]
    rw [show FV.flt (FV.num p.overbought) FV.nan = false from rfl]
    rw [zipWith_replicate_both]
    simp
  have hn : (constBars n c).length = n := by
    unfold constBars
    simp
  cases m with
  | train =>
      show selectRev (kdSupportCond (constBars n c) p) (kdResistanceCond (constBars n c) p) =
        List.replicate n Rev.none
      rw [hsc, hrc]
      unfold selectRev
      rw [zipWith_replicate_both]
      simp
  | check =>
      show selectRev
        (andL (kdSupportCond (constBars n c) p) (kdFutureConfirmation (constBars n c) true))
        (andL (kdResistanceCond (constBars n c) p) (kdFutureConfirmation (constBars n c) false)) =
        List.replicate n Rev.none
      rw [hsc, hrc]
      unfold andL
      rw [zipWith_left_const _ _ false (fun b => rfl), zipWith_left_const _ _ false (fun b => rfl)]
      rw [length_kdFutureConfirmation, length_kdFutureConfirmation, hn]
      unfold selectRev
      rw [zipWith_replicate_both]
      simp

theorem zipWith_right_const (g : α → β → γ) (y0 : β) (z : γ) (hg : ∀ a, g a y0 = z) :
    ∀ (xs : List α) (n : ℕ),
      List.zipWith g xs (List.replicate n y0) = List.replicate (min xs.length n) z := by
  intro xs
  induction xs with
  | nil =>
      intro nn
      simp
  | cons a as ih =>
      intro nn
      cases nn with
      | zero => simp
      | succ j =>
          rw [List.replicate_succ, List.zipWith_cons_cons, hg a, ih j]
          rw [List.length_cons, show min (as.length + 1) (j + 1) = min as.length j + 1 from by omega,
            List.replicate_succ]

theorem ewm_fold_const (a c : ℚ) : ∀ j : ℕ,
    (List.replicate j c).foldl
      (fun acc x => match acc with
        | Option.none => some x
        | some y => some ((1 - a) * y + a * x)) (some c) = some c := by
  intro j
  induction j with
  | zero => rfl
  | succ t ih =>
      rw [List.replicate_succ, List.foldl_cons]
      have hv : (1 - a) * c + a * c = c := by ring
      show (List.replicate t c).foldl
        (fun acc x => match acc with
          | Option.none => some x
          | some y => some ((1 - a) * y + a * x)) (some ((1 - a) * c + a * c)) = some c
      rw [hv, ih]

theorem ewmMean_const (span : ℕ) (n : ℕ) (c : ℚ) :
    ewmMean span (List.replicate n c) = List.replicate n c := by
  unfold ewmMean
  apply seriesMap_replicate
  intro k h1 h2
  obtain ⟨j, rfl⟩ : ∃ j, k = j + 1 := ⟨k - 1, by omega⟩
  show ((List.replicate (j + 1) c).foldl
    (fun acc x => match acc with
      | Option.none => some x
      | some y => some ((1 - (2 / ((span : ℚ) + 1))) * y + (2 / ((span : ℚ) + 1)) * x))
    Option.none).getD 0 = c
  rw [List.replicate_succ, List.foldl_cons]
  show ((List.replicate j c).foldl
    (fun acc x => match acc with
      | Option.none => some x
      | some y => some ((1 - (2 / ((span : ℚ) + 1))) * y + (2 / ((span : ℚ) + 1)) * x))
    (some c)).getD 0 = c
  rw [ewm_fold_const]
  rfl

theorem macdLine_const (n : ℕ) (c : ℚ) (fp sp : ℕ) :
    macdLine (List.replicate n c) fp sp = List.replicate n 0 := by
  unfold macdLine
  rw [ewmMean_const, ewmMean_const, zipWith_replicate_both]
  simp

theorem macdSignalLine_const (n : ℕ) (c : ℚ) (fp sp sigp : ℕ) :
    macdSignalLine (List.replicate n c) fp sp sigp = List.replicate n 0 := by
  unfold macdSignalLine
  rw [macdLine_const, ewmMean_const]

theorem macdMline_const (n : ℕ) (c : ℚ) (p : MACDParams) :
    macdMline (constBars n c) p = List.replicate n (FV.num 0) := by
  unfold macdMline
  rw [closes_const, macdLine_const, List.map_replicate]

theorem macdSline_const (n : ℕ) (c : ℚ) (p : MACDParams) :
    macdSline (constBars n c) p = List.replicate n (FV.num 0) := by
  unfold macdSline
  rw [closes_const, macdSignalLine_const, List.map_replicate]

theorem flt_zero_zero : FV.flt (FV.num 0) (FV.num 0) = false := by
  simp [FV.flt]

theorem macdSupportCond_const (n : ℕ) (c : ℚ) (p : MACDParams) :
    macdSupportCond (constBars n c) p = List.replicate n false := by
  have hg0 : gtScalar (macdMline (constBars n c) p) 0 = List.replicate n false := by
    rw [macdMline_const]
    unfold gtScalar
    simp only [List.map_replicate]
    rw [flt_zero_zero]
  unfold macdSupportCond
  rw [hg0]
  unfold andL
  rw [zipWith_right_const (fun a b => a && b) false false (fun a => by simp)]
  have hlen : (List.zipWith (fun a b => a && b)
      (gtL (macdMline (constBars n c) p) (macdSline (constBars n c) p))
      (leL (shiftOne (macdMline (constBars n c) p)) (shiftOne (macdSline (constBars n c) p)))).length = n := by
    unfold gtL leL shiftOne
    rw [List.length_zipWith, List.length_zipWith, List.length_zipWith,
      length_seriesMap, length_seriesMap, length_macdMline, length_macdSline]
    have hcb : (constBars n c).length = n := by unfold constBars; simp
    rw [hcb]
    simp
  rw [hlen]
  simp

theorem macdResistanceCond_const (n : ℕ) (c : ℚ) (p : MACDParams) :
    macdResistanceCond (constBars n c) p = List.replicate n false := by
  have hg0 : ltScalar (macdMline (constBars n c) p) 0 = List.replicate n false := by
    rw [macdMline_const]
    unfold ltScalar
    simp only [List.map_replicate]
    rw [flt_zero_zero]
  unfold macdResistanceCond
  rw [hg0]
  unfold andL
  rw [zipWith_right_const (fun a b => a && b) false false (fun a => by simp)]
  have hlen : (List.zipWith (fun a b => a && b)
      (ltL (macdMline (constBars n c) p) (macdSline (constBars n c) p))
      (geL (shiftOne (macdMline (constBars n c) p)) (shiftOne (macdSline (constBars n c) p)))).length = n := by
    unfold ltL geL shiftOne
    rw [List.length_zipWith, List.length_zipWith, List.length_zipWith,
      length_seriesMap, length_seriesMap, length_macdMline, length_macdSline]
    have hcb : (constBars n c).length = n := by unfold constBars; simp
    rw [hcb]
    simp
  rw [hlen]
  simp

theorem length_macdFutureConfirmation (bars : List Bar) (b : Bool) :
    (macdFutureConfirmation bars b).length = bars.length := by
  unfold macdFutureConfirmation
  simp

theorem macd_const_reversal (n : ℕ) (c : ℚ) (p : MACDParams) (m : Mode) :
    (macdCalculate (constBars n c) p m).reversal = List.replicate n Rev.none := by
  have hn : (constBars n c).length = n := by unfold constBars; simp
  by_cases hg : (p.fastPeriod : ℚ) * (3/2) > (p.slowPeriod : ℚ)
  · unfold macdCalculate
    rw [if_pos hg]
    show (constBars n c).map (fun _ => Rev.none) = List.replicate n Rev.none
    rw [constBars_eq, List.map_replicate]
  · have hsel : (macdCalculate (constBars n c) p m).reversal =
        selectRev
          (if m = Mode.check then andL (macdSupportCond (constBars n c) p) (macdFutureConfirmation (constBars n c) true) else macdSupportCond (constBars n c) p)
          (if m = Mode.check then andL (macdResistanceCond (constBars n c) p) (macdFutureConfirmation (constBars n c) false) else macdResistanceCond (constBars n c) p) := by
      unfold macdCalculate
      rw [if_neg hg]
    rw [hsel, macdSupportCond_const, macdResistanceCond_const]
    cases m with
    | train =>
        simp only [reduceCtorEq, if_false]
        unfold selectRev
        rw [zipWith_replicate_both]
        simp
    | check =>
        rw [if_pos rfl, if_pos rfl]
        unfold andL
        rw [zipWith_left_const _ _ false (fun b => rfl), zipWith_left_const _ _ false (fun b => rfl)]
        rw [length_macdFutureConfirmation, length_macdFutureConfirmation, hn]
        unfold selectRev
        rw [zipWith_replicate_both]
        simp

theorem rsiDelta_const_getq (n : ℕ) (c : ℚ) (i : ℕ) (hi : i < n) :
    (rsiDelta (List.replicate n c))[i]? = some (if i = 0 then FV.nan else FV.num 0) := by
  unfold rsiDelta
  rw [seriesMap_replicate_getq _ _ _ _ hi]
  congr 1
  unfold diffPre
  rw [List.length_replicate]
  by_cases h0 : i = 0
  · subst h0
    rw [if_neg (by omega), if_pos rfl]
  · rw [if_pos (by omega), if_neg h0]
    rw [getD_replicate _ _ _ _ (by omega), getD_replicate _ _ _ _ (by omega)]
    rw [sub_self]

theorem length_rsiDelta (close : List ℚ) : (rsiDelta close).length = close.length := by
  unfold rsiDelta
  rw [length_seriesMap]

theorem rsi_gain_raw_const (n : ℕ) (c : ℚ) :
    (rsiDelta (List.replicate n c)).map (fun d => if FV.flt (FV.num 0) d then d else FV.num 0) =
      List.replicate n (FV.num 0) := by
  apply List.ext_getElem?
  intro i
  by_cases hi : i < n
  · rw [List.getElem?_map, rsiDelta_const_getq _ _ _ hi, List.getElem?_replicate, if_pos hi]
    by_cases h0 : i = 0
    · rw [if_pos h0]
      rfl
    · rw [if_neg h0]
      show some (if FV.flt (FV.num 0) (FV.num 0) then FV.num 0 else FV.num 0) = some (FV.num 0)
      rw [ite_self]
  · rw [List.getElem?_eq_none, List.getElem?_eq_none]
    · rw [List.length_replicate]
      omega
    · rw [List.length_map, length_rsiDelta, List.length_replicate]
      omega

theorem rsi_loss_raw_const (n : ℕ) (c : ℚ) :
    (rsiDelta (List.replicate n c)).map (fun d => FV.neg (if FV.flt d (FV.num 0) then d else FV.num 0)) =
      List.replicate n (FV.num 0) := by
  apply List.ext_getElem?
  intro i
  by_cases hi : i < n
  · rw [List.getElem?_map, rsiDelta_const_getq _ _ _ hi, List.getElem?_replicate, if_pos hi]
    by_cases h0 : i = 0
    · rw [if_pos h0]
      show some (FV.neg (if FV.flt FV.nan (FV.num 0) then FV.nan else FV.num 0)) = some (FV.num 0)
      rw [show FV.flt FV.nan (FV.num 0) = false from rfl]
      simp [FV.neg]
    · rw [if_neg h0]
      show some (FV.neg (if FV.flt (FV.num 0) (FV.num 0) then FV.num 0 else FV.num 0)) = some (FV.num 0)
      rw [ite_self]
      simp [FV.neg]
  · rw [List.getElem?_eq_none, List.getElem?_eq_none]
    · rw [List.length_replicate]
      omega
    · rw [List.length_map, length_rsiDelta, List.length_replicate]
      omega

theorem aggMean_replicate_pos (m : ℕ) (hm : 1 ≤ m) (q : ℚ) :
    aggMean (List.replicate m (FV.num q)) = FV.num q := by
  rw [aggMean_replicate_num, if_neg (by omega)]

theorem aggMean_nil_nan : aggMean [] = FV.nan := by
  simp [aggMean, fvSum, FV.div]

theorem rsiGainAvg_const_getq (n : ℕ) (c : ℚ) (period : ℕ) (i : ℕ) (hi : i < n) :
    (rsiGainAvg (List.replicate n c) period)[i]? =
      some (if min period (i + 1) < period ∨ min period (i + 1) = 0 then FV.nan else FV.num 0) := by
  unfold rsiGainAvg
  rw [rsi_gain_raw_const]
  exact rollingApply_replicate_num_getq _ _ _ _ _ _ hi
    (fun m hm => aggMean_replicate_pos m hm 0) aggMean_nil_nan

theorem rsiLossAvg_const_getq (n : ℕ) (c : ℚ) (period : ℕ) (i : ℕ) (hi : i < n) :
    (rsiLossAvg (List.replicate n c) period)[i]? =
      some (if min period (i + 1) < period ∨ min period (i + 1) = 0 then FV.nan else FV.num 0) := by
  unfold rsiLossAvg
  rw [rsi_loss_raw_const]
  exact rollingApply_replicate_num_getq _ _ _ _ _ _ hi
    (fun m hm => aggMean_replicate_pos m hm 0) aggMean_nil_nan

theorem rsiRS_const (n : ℕ) (c : ℚ) (period : ℕ) :
    rsiRS (List.replicate n c) period = List.replicate n FV.nan := by
  apply List.ext_getElem?
  intro i
  by_cases hi : i < n
  · unfold rsiRS
    rw [List.getElem?_zipWith, rsiGainAvg_const_getq _ _ _ _ hi, rsiLossAvg_const_getq _ _ _ _ hi,
      List.getElem?_replicate, if_pos hi]
    by_cases hc : min period (i + 1) < period ∨ min period (i + 1) = 0
    · rw [if_pos hc]
      rfl
    · rw [if_neg hc]
      show some (FV.div (FV.num 0) (FV.num 0)) = some FV.nan
      simp [FV.div]
  · rw [List.getElem?_eq_none, List.getElem?_eq_none]
    · rw [List.length_replicate]
      omega
    · unfold rsiRS rsiGainAvg rsiLossAvg rollingApply
      rw [List.length_zipWith, length_seriesMap, length_seriesMap, List.length_map,
        List.length_map, length_rsiDelta, List.length_replicate]
      omega

theorem rsiCore_const (n : ℕ) (c : ℚ) (period : ℕ) :
    rsiCore (List.replicate n c) period = List.replicate n FV.nan := by
  unfold rsiCore
  rw [rsiRS_const]
  simp only [List.map_replicate]
  rfl

theorem length_rsiFutureConfirmation (bars : List Bar) (b : Bool) :
    (rsiFutureConfirmation bars b).length = bars.length := by
  unfold rsiFutureConfirmation
  simp

theorem rsi_const_reversal (n : ℕ) (c : ℚ) (p : RSIParams) (m : Mode) :
    (rsiCalculate (constBars n c) p m).reversal = List.replicate n Rev.none := by
  have hsc : rsiSupportCond (constBars n c) p = List.replicate n false := by
    unfold rsiSupportCond
    rw [closes_const, rsiCore_const]
    unfold andL ltL ltScalar
    dsimp only
    rw [shiftOne_replicate_nan]
    rw [zipWith_replicate_both, List.map_replicate]
    rw [show FV.flt FV.nan FV.nan = false from rfl]
    rw [show FV.flt FV.nan (FV.num p.oversold) = false from rfl]
    rw [zipWith_replicate_both, zipWith_replicate_both]
    simp
  have hrc : rsiResistanceCond (constBars n c) p = List.replicate n false := by
    unfold rsiResistanceCond
    rw [closes_const, rsiCore_const]
    unfold andL gtL gtScalar
    dsimp only
    rw [shiftOne_replicate_nan]
    rw [zipWith_replicate_both, List.map_replicate]
    rw [show FV.flt FV.nan FV.nan = false from rfl]
    rw [show FV.flt (FV.num p.overbought) FV.nan = false from rfl]
    rw [zipWith_replicate_both, zipWith_replicate_both]
    simp
  have hn : (constBars n c).length = n := by
    unfold constBars
    simp
  cases m with
  | train =>
      show selectRev (rsiSupportCond (constBars n c) p) (rsiResistanceCond (constBars n c) p) =
        List.replicate n Rev.none
      rw [hsc, hrc]
      unfold selectRev
      rw [zipWith_replicate_both]
      simp
  | check =>
      show selectRev
        (andL (rsiSupportCond (constBars n c) p) (rsiFutureConfirmation (constBars n c) true))
        (andL (rsiResistanceCond (constBars n c) p) (rsiFutureConfirmation (constBars n c) false)) =
        List.replicate n Rev.none
      rw [hsc, hrc]
      unfold andL
      rw [zipWith_left_const _ _ false (fun b => rfl), zipWith_left_const _ _ false (fun b => rfl)]
      rw [length_rsiFutureConfirmation, length_rsiFutureConfirmation, hn]
      unfold selectRev
      rw [zipWith_replicate_both]
      simp

theorem calc_const_reversal (n : ℕ) (c : ℚ) (sp : StratParams) (m : Mode) :
    (calcFrame sp (constBars n c) m).reversal = List.replicate n Rev.none := by
  cases sp with
  | kd p => exact kd_const_reversal n c p m
  | macd p => exact macd_const_reversal n c p m
  | rsi p => exact rsi_const_reversal n c p m

theorem zip3M_mem_fst : ∀ (r : List Rev) (s w : List Bool) (x : Rev × Bool × Bool),
    x ∈ zip3M r s w → x.1 ∈ r := by
  intro r
  induction r with
  | nil =>
      intro s w x hx
      cases s <;> cases w <;> simp [zip3M] at hx
  | cons a as ih =>
      intro s w x hx
      cases s with
      | nil => simp [zip3M] at hx
      | cons b bs =>
          cases w with
          | nil => simp [zip3M] at hx
          | cons d ds =>
              simp only [zip3M, List.mem_cons] at hx
              rcases hx with h | h
              · subst h
                exact List.mem_cons_self _ _
              · exact List.mem_cons_of_mem _ (ih bs ds x h)

theorem calculate_win_rate_zero_counts (f : SignalFrame)
    (hrev : ∀ x ∈ f.reversal, x = Rev.none)
    (la : ℕ) (mult : ℚ) (atrp : ℕ) (chl : Bool) :
    (calculate_win_rate f la mult atrp chl).support_signals_count = 0 ∧
      (calculate_win_rate f la mult atrp chl).resistance_signals_count = 0 := by
  have hs : ∀ (ws : List Bool),
      (zip3M f.reversal f.is_strong ws).filter (fun x => decide (x.1 = Rev.support)) = [] := by
    intro ws
    apply List.filter_eq_nil_iff.mpr
    intro a ha
    have h1 : a.1 ∈ f.reversal := zip3M_mem_fst _ _ _ a ha
    rw [hrev _ h1]
    simp
  have hr : ∀ (ws : List Bool),
      (zip3M f.reversal f.is_strong ws).filter (fun x => decide (x.1 = Rev.resistance)) = [] := by
    intro ws
    apply List.filter_eq_nil_iff.mpr
    intro a ha
    have h1 : a.1 ∈ f.reversal := zip3M_mem_fst _ _ _ a ha
    rw [hrev _ h1]
    simp
  unfold calculate_win_rate
  dsimp only
  rw [hs, hr]
  simp

theorem trueRangeL_const (m : ℕ) (c : ℚ) :
    trueRangeL (List.replicate m ({ op := c, high := c, low := c, close := c, volume := 0 } : Bar)) =
      List.replicate m 0 := by
  unfold trueRangeL
  apply seriesMap_replicate
  intro k h1 h2
  unfold trPre
  have hlast : (List.replicate k ({ op := c, high := c, low := c, close := c, volume := 0 } : Bar)).getLast? =
      some ({ op := c, high := c, low := c, close := c, volume := 0 } : Bar) := by
    rw [List.getLast?_eq_getElem?, List.length_replicate, List.getElem?_replicate, if_pos (by omega)]
  rw [hlast]
  dsimp only
  rw [List.length_replicate]
  by_cases h3 : 2 ≤ k
  · rw [if_pos h3]
    have hpb : (List.replicate k ({ op := c, high := c, low := c, close := c, volume := 0 } : Bar))[k - 2]? =
        some ({ op := c, high := c, low := c, close := c, volume := 0 } : Bar) := by
      rw [List.getElem?_replicate, if_pos (by omega)]
    rw [hpb]
    dsimp only
    rw [sub_self]
    simp
  · rw [if_neg h3]
    exact sub_self c

theorem ATR_const (m : ℕ) (c : ℚ) (period : ℕ) :
    ATR (List.replicate m ({ op := c, high := c, low := c, close := c, volume := 0 } : Bar)) period =
      List.replicate m 0 := by
  unfold ATR rollingMeanOne
  rw [trueRangeL_const]
  apply seriesMap_replicate
  intro k h1 h2
  rw [lastWin_replicate]
  simp

theorem meanQ_replicate_zero (m : ℕ) : meanQ (List.replicate m (0 : ℚ)) = 0 := by
  unfold meanQ
  simp

theorem length_arraySplit (l : List α) (k : ℕ) : (arraySplit l k).length = k := by
  unfold arraySplit
  simp

theorem groupVolList_const (n : ℕ) (c : ℚ) (k period : ℕ) :
    groupVolList (arraySplit (constBars n c) k) period = List.replicate k 0 := by
  have hmem : ∀ b ∈ groupVolList (arraySplit (constBars n c) k) period, b = (0 : ℚ) := by
    intro b hb
    unfold groupVolList at hb
    rw [List.mem_map] at hb
    obtain ⟨g, hg, hval⟩ := hb
    unfold arraySplit constBars at hg
    dsimp only at hg
    rw [List.mem_map] at hg
    obtain ⟨i, hi, hgi⟩ := hg
    rw [← hval, ← hgi]
    rw [List.drop_replicate, List.take_replicate]
    rw [ATR_const, meanQ_replicate_zero, zero_div]
  have hlen : (groupVolList (arraySplit (constBars n c) k) period).length = k := by
    unfold groupVolList
    rw [List.length_map, length_arraySplit]
  calc groupVolList (arraySplit (constBars n c) k) period
      = List.replicate (groupVolList (arraySplit (constBars n c) k) period).length 0 :=
        List.eq_replicate_of_mem hmem
    _ = List.replicate k 0 := by rw [hlen]

theorem getD_oob (l : List α) (i : ℕ) (d : α) (h : l.length ≤ i) : l.getD i d = d := by
  unfold List.getD
  rw [List.get?_eq_getElem?, List.getElem?_eq_none h]
  rfl

theorem maQ_const_getD (w : ℕ) (n : ℕ) (c : ℚ) (i : ℕ) :
    (maQ w (List.replicate n c)).getD i FV.nan = FV.nan ∨
      (maQ w (List.replicate n c)).getD i FV.nan = FV.num c := by
  unfold maQ
  rw [List.map_replicate]
  by_cases hi : i < n
  · have h := rollingApply_replicate_num_getq w w aggMean n c i hi
      (fun m hm => aggMean_replicate_pos m hm c) aggMean_nil_nan
    rw [getD_of_getq h]
    by_cases hc : min w (i + 1) < w ∨ min w (i + 1) = 0
    · left
      rw [if_pos hc]
    · right
      rw [if_neg hc]
  · left
    apply getD_oob
    unfold rollingApply
    rw [length_seriesMap, List.length_replicate]
    omega

theorem flt_nan_or_num_false (x y : FV) (c : ℚ)
    (hx : x = FV.nan ∨ x = FV.num c) (hy : y = FV.nan ∨ y = FV.num c) :
    FV.flt x y = false := by
  rcases hx with h | h <;> rcases hy with h2 | h2 <;> subst h <;> subst h2
  · rfl
  · rfl
  · rfl
  · show FV.flt (FV.num c) (FV.num c) = false
    simp [FV.flt]

theorem foldl_trendStep_id (isU isD : ℕ → Bool) (hU : ∀ i, isU i = false) (hD : ∀ i, isD i = false) :
    ∀ (l : List ℕ), l.foldl (trendStep isU isD) (0, 0, []) = (0, 0, []) := by
  intro l
  induction l with
  | nil => rfl
  | cons a as ih =>
      rw [List.foldl_cons]
      have hstep : trendStep isU isD (0, 0, []) a = (0, 0, []) := by
        simp [trendStep, hU, hD]
      rw [hstep, ih]

theorem trend_duration_const (n : ℕ) (c : ℚ) :
    calculate_trend_duration (constBars n c) = [] := by
  unfold calculate_trend_duration
  rw [closes_const]
  dsimp only
  rw [foldl_trendStep_id]
  · simp
  · intro i
    rw [flt_nan_or_num_false _ _ c (maQ_const_getD 10 n c i) (maQ_const_getD 5 n c i)]
    rw [Bool.false_and, Bool.false_and]
  · intro i
    rw [flt_nan_or_num_false _ _ c (maQ_const_getD 5 n c i) (maQ_const_getD 10 n c i)]
    rw [Bool.false_and, Bool.false_and]

theorem analyze_const_rows (n : ℕ) (c : ℚ) (period : ℕ) (row : MarketStateRow)
    (hrow : row ∈ analyze_market_states (constBars n c) period) :
    row.historical_volatility = 0 ∧ row.trend_length = 0 := by
  unfold analyze_market_states at hrow
  dsimp only at hrow
  rw [List.mem_map] at hrow
  obtain ⟨gi, hgi, hval⟩ := hrow
  rw [← hval]
  dsimp only
  refine ⟨?_, ?_⟩
  · rw [groupVolList_const, List.take_replicate]
    exact meanQ_replicate_zero _
  · rw [trend_duration_const]
    simp

theorem length_analyze_market_states (bars : List Bar) (period : ℕ) :
    (analyze_market_states bars period).length = (bars.length + period - 1) / period := by
  unfold analyze_market_states
  dsimp only
  rw [List.length_map, List.length_range, length_arraySplit]

theorem analyze_const_getLast (c : ℚ) (period : ℕ) (hp : 1 ≤ period) :
    ∃ row : MarketStateRow,
      (analyze_market_states (constBars 300 c) period).getLast? = some row ∧
        row.historical_volatility = 0 ∧ row.trend_length = 0 := by
  have h300 : (constBars 300 c).length = 300 := by
    unfold constBars
    rw [List.length_replicate]
  have hlen : (analyze_market_states (constBars 300 c) period).length = (300 + period - 1) / period := by
    rw [length_analyze_market_states, h300]
  have hk : 1 ≤ (300 + period - 1) / period := by
    rw [Nat.le_div_iff_mul_le (by omega)]
    omega
  obtain ⟨row, hrow⟩ : ∃ row, (analyze_market_states (constBars 300 c) period).getLast? = some row := by
    rw [List.getLast?_eq_getElem?]
    have h1 : (analyze_market_states (constBars 300 c) period).length - 1 <
        (analyze_market_states (constBars 300 c) period).length := by
      omega
    rw [List.getElem?_eq_getElem h1]
    exact ⟨_, rfl⟩
  have hmem : row ∈ analyze_market_states (constBars 300 c) period := by
    rw [List.getLast?_eq_getElem?] at hrow
    exact List.getElem?_mem hrow
  obtain ⟨h1, h2⟩ := analyze_const_rows 300 c period row hmem
  exact ⟨row, hrow, h1, h2⟩

theorem determine_look_ahead_zero : determine_look_ahead 0 0 = 10 := by
  have h1 : ¬((0 : ℚ) > 3/100 ∧ (0 : ℚ) < 7) := by
    intro h
    exact absurd h.1 (by norm_num)
  have h2 : ¬((0 : ℚ) < 2/100 ∧ (0 : ℚ) > 10) := by
    intro h
    exact absurd h.2 (by norm_num)
  unfold determine_look_ahead
  rw [if_neg h1, if_neg h2]

theorem get_signal_target_percentage_zero : get_signal_target_percentage 0 = 3/100 := by
  unfold get_signal_target_percentage
  rw [if_neg (by norm_num), if_neg (by norm_num)]

/-- C9: On the 300-bar zero-volatility constant series the regime classifier's
final row carries historical volatility 0 and trend length 0; the lookahead
classifier then returns 10 — the middle branch, not the low-volatility value 14
the spec promises, because a constant series produces no moving-average trend
runs at all, so trend_length = 0 fails the > 10 test of the 14-branch.  The
signal density target is 3% as stated, and for every strategy, mode and
evaluator arguments the win-rate evaluator reports zero support and zero
resistance signals (and, being total, raises nothing). -/
theorem const_series_regime_and_signals (c : ℚ) (period : ℕ) (hp : 1 ≤ period) :
    (∃ row : MarketStateRow,
        (analyze_market_states (constBars 300 c) period).getLast? = some row ∧
          row.historical_volatility = 0 ∧ row.trend_length = 0 ∧
          determine_look_ahead row.historical_volatility row.trend_length = 10 ∧
          get_signal_target_percentage row.historical_volatility = 3/100) ∧
      (∀ (sp : StratParams) (m : Mode) (la : ℕ) (mult : ℚ) (atrp : ℕ) (chl : Bool),
        (calculate_win_rate (calcFrame sp (constBars 300 c) m) la mult atrp chl).support_signals_count = 0 ∧
        (calculate_win_rate (calcFrame sp (constBars 300 c) m) la mult atrp chl).resistance_signals_count = 0) := by
  constructor
  · obtain ⟨row, hlast, h1, h2⟩ := analyze_const_getLast c period hp
    refine ⟨row, hlast, h1, h2, ?_, ?_⟩
    · rw [h1, h2, determine_look_ahead_zero]
    · rw [h1, get_signal_target_percentage_zero]
  · intro sp m la mult atrp chl
    apply calculate_win_rate_zero_counts
    intro x hx
    rw [calc_const_reversal] at hx
    exact List.eq_of_mem_replicate hx

theorem const_series_regime_and_signals_witness :
    1 ≤ 20 ∧
      ((∃ row : MarketStateRow,
          (analyze_market_states (constBars 300 1) 20).getLast? = some row ∧
            row.historical_volatility = 0 ∧ row.trend_length = 0 ∧
            determine_look_ahead row.historical_volatility row.trend_length = 10 ∧
            get_signal_target_percentage row.historical_volatility = 3/100) ∧
        (∀ (sp : StratParams) (m : Mode) (la : ℕ) (mult : ℚ) (atrp : ℕ) (chl : Bool),
          (calculate_win_rate (calcFrame sp (constBars 300 1) m) la mult atrp chl).support_signals_count = 0 ∧
          (calculate_win_rate (calcFrame sp (constBars 300 1) m) la mult atrp chl).resistance_signals_count = 0)) :=
  ⟨by decide, const_series_regime_and_signals 1 20 (by decide)⟩

/-- The lookahead chosen on the 300-bar constant series is 10, not the 14 the
spec's low-volatility branch promises. -/
theorem const_series_lookahead_not_14 :
    ((analyze_market_states (constBars 300 1) 20).getLast?.map
        (fun row => determine_look_ahead row.historical_volatility row.trend_length)) = some 10 ∧
      (10 : ℕ) ≠ 14 := by
  constructor
  · obtain ⟨row, hlast, h1, h2⟩ := analyze_const_getLast 1 20 (by decide)
    rw [hlast]
    show some (determine_look_ahead row.historical_volatility row.trend_length) = some 10
    rw [h1, h2, determine_look_ahead_zero]
  · decide
